import Mathlib

/-!
Verification development for the `tsutil.py` command-line utilities of the
tsdate_paper repository (file `all-data/tsutil.py`).

The Python source is shallowly embedded as Lean functions over lists:

* a tsinfer `SampleData` container is a `SampleData` value: its sequence
  length, its sample count and its list of sites (each site carrying its
  position, its allele list and one genotype entry per sample);
* numpy arrays become `List` values, numpy boolean-mask selection and
  block assignment become explicit list operations (`selectMask`,
  `setSegment`, `setColBlock`, `scatterRows`);
* fallible steps (Python `assert`, `raise`, unbound locals, calls on files
  opened with the wrong mode, and the strictly-increasing-position check
  of `tsinfer.SampleData.add_site`) return `Except String`;
* site positions are modelled as `Nat` (the source stores floating point
  positions but only ever compares, sorts and set-intersects them);
  float `NaN` entries of the pandas dataframes become `Option` values
  with `none` for `NaN`, including the pandas rule that `NaN != x` and
  `NaN != NaN` are both true;
* side effects that no claim mentions (logging, progress bars, metadata
  and provenance columns, population/individual tables) are omitted.

External-library calls are embedded from their documented behaviour where
a claim depends on them: `tsinfer.SampleData.add_site` rejects a position
that is not strictly greater than the previously added one, and
`tskit.TableCollection.simplify` with `filter_sites=False` keeps every
site row and keeps each mutation's site and derived state while remapping
mutation nodes (the remap is an arbitrary function parameter here).
-/

/-- `tskit.MISSING_DATA`. -/
def MISSING_DATA : Int := -1

/-- One site of a tsinfer SampleData file: its position, its alleles
(`alleles[0]` ancestral, `alleles[1]` derived when present) and one
genotype value per sample. -/
structure Site where
  position : Nat
  alleles : List String
  genotypes : List Int
deriving DecidableEq, Repr

/-- A tsinfer SampleData container, restricted to the fields `tsutil.py`
reads: `sequence_length`, `num_samples` and the site table. -/
structure SampleData where
  sequence_length : Nat
  num_samples : Nat
  sites : List Site
deriving DecidableEq, Repr

/-- `samples.sites_position[:]`. -/
def sitePositions (sd : SampleData) : List Nat := sd.sites.map Site.position

/-- `allele[0]` of a site's allele list (the ancestral allele). -/
def ancOf (s : Site) : String := s.alleles.getD 0 ""

/-- `allele[1] if len(allele) > 1 else ""` (merge-sampledata's derived allele). -/
def derivBlankOf (s : Site) : String := s.alleles.getD 1 ""

/-- `allele[1] if len(allele) > 1 else np.nan` (combine-sampledata's derived
allele; `none` models the `NaN`). -/
def derivNanOf (s : Site) : Option String := s.alleles[1]?

/-- Total sample count of a list of files (`total_samples` accumulator). -/
def totalSamples (files : List SampleData) : Nat :=
  (files.map SampleData.num_samples).sum

/-- Start of the column block of file `i` in the combined genotype matrix:
the sum of the sample counts of the files before it (`cur_sample`). -/
def sampleOffset (files : List SampleData) (i : Nat) : Nat :=
  ((files.take i).map SampleData.num_samples).sum

/-- Boolean-mask selection, `a[mask]` for a numpy boolean mask. -/
def selectMask {α : Type} : List α → List Bool → List α
  | x :: xs, c :: cs => if c then x :: selectMask xs cs else selectMask xs cs
  | _, _ => []

/-- Assignment `row[c : c + seg.length] = seg` into one matrix row. -/
def setSegment (row : List Int) (c : Nat) (seg : List Int) : List Int :=
  row.take c ++ seg ++ row.drop (c + seg.length)

/-- Assignment `m[:, c : c + width] = blocks`: every row of `m` gets the
corresponding row of `blocks` written at column `c`. -/
def setColBlock : List (List Int) → Nat → List (List Int) → List (List Int)
  | [], _, _ => []
  | m, _, [] => m
  | row :: m, c, b :: bs => setSegment row c b :: setColBlock m c bs

/-- Replace the element at index `i` by `f` of it (list update helper). -/
def modifyAt {α : Type} : List α → Nat → (α → α) → List α
  | [], _, _ => []
  | x :: xs, 0, f => f x :: xs
  | x :: xs, n + 1, f => x :: modifyAt xs n f

/-- Assignment `m[rowIdx, c : c + width] = blocks` with an integer row-index
array: the k-th listed row receives the k-th block at column `c`. -/
def scatterRows (m : List (List Int)) (rowIdx : List Nat) (c : Nat)
    (blocks : List (List Int)) : List (List Int) :=
  (rowIdx.zip blocks).foldl (fun acc p => modifyAt acc p.1 (fun row => setSegment row c p.2)) m

/-- Entry `m[r][c]` of a matrix, `none` when out of bounds. -/
def matrixEntry (m : List (List Int)) (r c : Nat) : Option Int :=
  match m[r]? with
  | some row => row[c]?
  | none => none

/-!  The file-loading loop shared by combine-sampledata and
merge-sampledata (lines 539-548 and 671-679): sequence lengths are
checked with `if sequence_length: assert sequence_length == ...` so a
falsy (zero) recorded length is overwritten instead of compared. -/

/-- One pass of the loading loop over the remaining files, carrying the
`sequence_length` local (`none` before the first file). -/
def loadSeqLenLoop : List SampleData → Option Nat → Except String (Option Nat)
  | [], st => .ok st
  | sd :: rest, st =>
    match st with
    | none => loadSeqLenLoop rest (some sd.sequence_length)
    | some s =>
      if s ≠ 0 then
        if s = sd.sequence_length then loadSeqLenLoop rest (some s)
        else .error "AssertionError: sequence length mismatch"
      else loadSeqLenLoop rest (some sd.sequence_length)

/-- The sequence-length recorded after loading all input files, or the
assertion failure raised while loading (before any output is created). -/
def loadSequenceLengths (files : List SampleData) : Except String (Option Nat) :=
  loadSeqLenLoop files none

/-!  The output SampleData being built (`tsinfer.SampleData(...) as samples`).
`add_site` is embedded from tsinfer's documented contract: each added site's
position must be strictly greater than the previous one. -/

/-- One site of the output file: position, genotype row and alleles
(`none` stands for a pandas `NaN` that reached `add_site`). -/
structure OutSite where
  position : Nat
  genotypes : List Int
  alleles : List (Option String)
deriving DecidableEq, Repr

/-- The written output file: its sequence length and its site table. -/
structure SdOutput where
  sequence_length : Option Nat
  sites : List OutSite
deriving DecidableEq, Repr

/-- `samples.add_site(...)`: appends the site, failing unless its position
is strictly greater than the last added position (tsinfer's contract). -/
def addSiteRow (acc : List OutSite) (s : OutSite) : Except String (List OutSite) :=
  match acc.getLast? with
  | some prev =>
    if prev.position < s.position then .ok (acc ++ [s])
    else .error "ValueError: site position must be greater than previous"
  | none => .ok (acc ++ [s])

/-- The `add_site` loop over all prepared output rows. -/
def addAllSites (rows : List OutSite) : Except String (List OutSite) :=
  rows.foldlM addSiteRow []

/-!  run_merge_sampledata (lines 663-725). -/

/-- `np.sort(list(set.intersection(*map(set, [sd.sites_position for sd in files]))))`:
the sorted, duplicate-free list of positions present in every input file. -/
def mergedPositions0 (files : List SampleData) : List Nat :=
  match files with
  | [] => []
  | f0 :: rest =>
    List.insertionSort (· ≤ ·)
      ((sitePositions f0).dedup.filter (fun p => rest.all (fun sd => decide (p ∈ sitePositions sd))))

/-- `sd.sites_xxx[:][np.isin(sd.sites_position[:], merged_pos)]`: the sites of
a file whose position lies in `mp`, in file order. -/
def selectSites (sd : SampleData) (mp : List Nat) : List Site :=
  sd.sites.filter (fun s => decide (s.position ∈ mp))

/-- `anc_alleles` of a file restricted to the merged positions. -/
def ancListOf (sd : SampleData) (mp : List Nat) : List String :=
  (selectSites sd mp).map ancOf

/-- `deriv_alleles` (with `""` for a missing derived allele) of a file
restricted to the merged positions. -/
def derivListOf (sd : SampleData) (mp : List Nat) : List String :=
  (selectSites sd mp).map derivBlankOf

/-- The `deriv_alleles`/`biallelic_sites` pair threaded through the
allele-reconciliation loop of run_merge_sampledata. -/
structure AlleleState where
  deriv : List String
  biallelic : List Bool
deriving DecidableEq, Repr

/-- The loop over `sampledata_files[1:]` (lines 699-707): assert the
ancestral alleles match file 0's, fill missing derived alleles from the
current file, and clear `biallelic_sites` where derived alleles conflict. -/
def mergeAlleleLoop (ancA : List String) (mp : List Nat) :
    List SampleData → AlleleState → Except String AlleleState
  | [], st => .ok st
  | sd :: rest, st =>
    if ancA = ancListOf sd mp then
      let cur := derivListOf sd mp
      let deriv2 := st.deriv.zipWith (fun d c => if d = "" ∨ c = "" then c else d) cur
      let bial2 := st.biallelic.zipWith (fun b e => b && e)
        (deriv2.zipWith (fun d c => decide (d = c)) cur)
      mergeAlleleLoop ancA mp rest ⟨deriv2, bial2⟩
    else .error "AssertionError: ancestral alleles differ"

/-- Lines 694-707 of run_merge_sampledata as one stage, started from file 0's
allele columns and an all-true `biallelic_sites`. -/
def mergeAllelesStage (files : List SampleData) : Except String AlleleState :=
  match files with
  | [] => .error "TypeError: no sampledata files"
  | f0 :: rest =>
    mergeAlleleLoop (ancListOf f0 (mergedPositions0 files)) (mergedPositions0 files) rest
      ⟨derivListOf f0 (mergedPositions0 files),
       List.replicate (mergedPositions0 files).length true⟩

/-- Lines 712-720: the combined genotype matrix of merge-sampledata, filled
with `tskit.MISSING_DATA` and overwritten column-block by column-block with
each file's rows at the merged positions. -/
def mergeGenos (files : List SampleData) (mp : List Nat) : List (List Int) :=
  (files.foldl
    (fun acc sd =>
      (setColBlock acc.1 acc.2 ((selectSites sd mp).map Site.genotypes), acc.2 + sd.num_samples))
    (List.replicate mp.length (List.replicate (totalSamples files) MISSING_DATA), 0)).1

/-- The `zip(merged_pos, combined_genos, anc_alleles, deriv_alleles, ...)`
rows fed to `add_site` (Python `zip` truncates to the shortest input). -/
def mergeRows (mp : List Nat) (genos : List (List Int)) (anc deriv : List String) :
    List OutSite :=
  ((mp.zip genos).zip (anc.zip deriv)).map
    (fun pr => { position := pr.1.1, genotypes := pr.1.2,
                 alleles := [some pr.2.1, some pr.2.2] })

/-- run_merge_sampledata: load (checking sequence lengths), reconcile the
alleles over the intersection of positions, keep the biallelic-compatible
positions, build the genotype matrix and add the sites to the output. -/
def runMergeSampledata : List SampleData → Except String SdOutput
  | [] => .error "TypeError: no sampledata files"
  | f0 :: rest =>
    match loadSequenceLengths (f0 :: rest) with
    | .error e => .error e
    | .ok seqLen =>
      match mergeAllelesStage (f0 :: rest) with
      | .error e => .error e
      | .ok st =>
        match addAllSites
            (mergeRows (selectMask (mergedPositions0 (f0 :: rest)) st.biallelic)
              (mergeGenos (f0 :: rest) (selectMask (mergedPositions0 (f0 :: rest)) st.biallelic))
              (ancListOf f0 (mergedPositions0 (f0 :: rest))) st.deriv) with
        | .error e => .error e
        | .ok sites => .ok { sequence_length := seqLen, sites := sites }

/-!  run_combine_sampledata (lines 518-635). -/

/-- One row of a per-file site dataframe from `make_site_df`: site id
(the `arange` column), position, ancestral allele, derived allele
(`none` for the `np.nan` of a site with a single allele). -/
structure DfRow where
  id : Nat
  position : Nat
  anc : String
  deriv : Option String
deriving DecidableEq, Repr

/-- `make_site_df(samples, file_index)` (the file index only names the
site-id column and is kept implicit here). -/
def makeSiteDf (sd : SampleData) : List DfRow :=
  sd.sites.enum.map
    (fun js => { id := js.1, position := js.2.position, anc := ancOf js.2,
                 deriv := derivNanOf js.2 })

/-- One row of `combined_pos_df`: the join keys (position, ancestral
allele), the progressively filled `Derived Allele` column, the per-file
`Site ID` columns and the per-file suffixed `Derived Allele{i}` columns
(`none` for `NaN`; index 0 of both lists belongs to file 0, whose derived
allele seeded `deriv`, so `dcols[0]` is always `none`). -/
structure CRow where
  position : Nat
  anc : String
  deriv : Option String
  ids : List (Option Nat)
  dcols : List (Option String)
deriving DecidableEq, Repr

/-- `combined_pos_df = df0` at loop index 0. -/
def initCombinedDf (sd : SampleData) : List CRow :=
  (makeSiteDf sd).map
    (fun d => { position := d.position, anc := d.anc, deriv := d.deriv,
                ids := [some d.id], dcols := [(none : Option String)] })

/-- The unique dataframe row of file `i` matching the join key, if any. -/
def dfFindMatch (df : List DfRow) (p : Nat) (a : String) : Option DfRow :=
  df.find? (fun d => decide (d.position = p ∧ d.anc = a))

/-- Whether `combined_pos_df` already holds a row with this join key. -/
def crowHasKey (acc : List CRow) (p : Nat) (a : String) : Bool :=
  acc.any (fun r => decide (r.position = p ∧ r.anc = a))

/-- How one existing row of `combined_pos_df` changes under the outer join
with file dataframe `df` followed by the `fillna` of `Derived Allele`
(lines 576-577): a matched row gains the file's site id and derived
column, an unmatched row gains `NaN`s. -/
def mergeStepRow (df : List DfRow) (r : CRow) : CRow :=
  match dfFindMatch df r.position r.anc with
  | some d =>
    { r with ids := r.ids ++ [some d.id], dcols := r.dcols ++ [d.deriv],
             deriv := match r.deriv with | none => d.deriv | some v => some v }
  | none => { r with ids := r.ids ++ [(none : Option Nat)],
                     dcols := r.dcols ++ [(none : Option String)] }

/-- A right-only dataframe row appended by the outer join at file index
`i`: its earlier site-id and derived columns are `NaN`. -/
def mergeStepNewRow (i : Nat) (d : DfRow) : CRow :=
  { position := d.position, anc := d.anc, deriv := d.deriv,
    ids := List.replicate i (none : Option Nat) ++ [some d.id],
    dcols := List.replicate i (none : Option String) ++ [d.deriv] }

/-- One `pd.merge(combined_pos_df, df, how="outer", on=["Position",
"Ancestral Allele"])` followed by the `fillna` of `Derived Allele`
(lines 576-577): matched rows gain file `i`'s site id and derived column,
unmatched left rows gain `NaN`s, and unmatched right rows are appended. -/
def mergeStep (i : Nat) (acc : List CRow) (df : List DfRow) : List CRow :=
  acc.map (mergeStepRow df) ++
    (df.filter (fun d => ! crowHasKey acc d.position d.anc)).map (mergeStepNewRow i)

/-- The fold of `mergeStep` over the input files (lines 571-579). -/
def combinedDf (files : List SampleData) : List CRow :=
  match files with
  | [] => []
  | f0 :: rest =>
    rest.enum.foldl (fun acc p => mergeStep (p.1 + 1) acc (makeSiteDf p.2)) (initCombinedDf f0)

/-- Ordering of `combined_pos_df.sort_values(by=["Position"])`. -/
def crowLe (a b : CRow) : Prop := a.position ≤ b.position

instance : DecidableRel crowLe := fun a b => inferInstanceAs (Decidable (a.position ≤ b.position))

/-- `combined_pos_df` after the sort by position (line 587). -/
def sortedCombinedDf (files : List SampleData) : List CRow :=
  List.insertionSort crowLe (combinedDf files)

/-- Pandas `!=` on two possibly-NaN cells: `NaN` compares unequal to
everything, including another `NaN`. -/
def pdStrNe : Option String → Option String → Bool
  | some a, some b => decide (a ≠ b)
  | _, _ => true

/-- Lines 604-606: a row is multiallelic for file `i` when file `i`'s
suffixed derived column exists (is not `NaN`) and differs from the filled
`Derived Allele` column. -/
def multiallelicAt (r : CRow) (i : Nat) : Bool :=
  (r.dcols.getD i none).isSome && pdStrNe r.deriv (r.dcols.getD i none)

/-- Lines 607-612: file `i`'s genotype rows with every `1` replaced by
`tskit.MISSING_DATA` at the site ids of the multiallelic rows. -/
def maskedGenotypes (df : List CRow) (i : Nat) (sd : SampleData) : List (List Int) :=
  sd.sites.enum.map (fun ks =>
    if df.any (fun r => decide (r.ids.getD i none = some ks.1) && multiallelicAt r i) then
      ks.2.genotypes.map (fun g => if g = 1 then MISSING_DATA else g)
    else ks.2.genotypes)

/-- The genotype rows file `i` contributes to the combined matrix: raw for
file 0 (line 615), multiallelic-masked for the others (line 613). -/
def genosUsed (df : List CRow) (i : Nat) (sd : SampleData) : List (List Int) :=
  if i = 0 then sd.sites.map Site.genotypes else maskedGenotypes df i sd

/-- `pos_bool = np.where(~np.isnan(cur_file_sites))[0]`: the indices of the
dataframe rows carrying a site id for file `i`, in dataframe order. -/
def selectedRowIndices (df : List CRow) (i : Nat) : List Nat :=
  (df.enum.filter (fun p => (p.2.ids.getD i none).isSome)).map Prod.fst

/-- Lines 590-617: the combined genotype matrix, initialised to
`tskit.MISSING_DATA`, each file scattering its (masked) genotype rows into
its own contiguous column block at the rows where it has a site. -/
def combineGenos (df : List CRow) (files : List SampleData) : List (List Int) :=
  (files.enum.foldl
    (fun acc p =>
      (scatterRows acc.1 (selectedRowIndices df p.1) acc.2 (genosUsed df p.1 p.2),
       acc.2 + p.2.num_samples))
    (List.replicate df.length (List.replicate (totalSamples files) MISSING_DATA), 0)).1

/-- The `zip(...)` rows of lines 632-635 fed to `add_site`. -/
def combineRows (df : List CRow) (genos : List (List Int)) : List OutSite :=
  (df.zip genos).map
    (fun rg => { position := rg.1.position, genotypes := rg.2,
                 alleles := [some rg.1.anc, rg.1.deriv] })

/-- run_combine_sampledata: load (checking sequence lengths), outer-join the
per-file site dataframes on (position, ancestral allele), sort by position,
build the combined genotype matrix and add every row to the output. -/
def runCombineSampledata : List SampleData → Except String SdOutput
  | [] => .error "NameError: combined_pos_df is not defined"
  | f0 :: rest =>
    match loadSequenceLengths (f0 :: rest) with
    | .error e => .error e
    | .ok seqLen =>
      match addAllSites (combineRows (sortedCombinedDf (f0 :: rest))
          (combineGenos (sortedCombinedDf (f0 :: rest)) (f0 :: rest))) with
      | .error e => .error e
      | .ok sites => .ok { sequence_length := seqLen, sites := sites }

/-!  Spec-side site-count quantities ("size of the intersection/union of
input site positions"), written from the spec's words for comparison with
the code's output counts. -/

/-- The set of site positions of one file. -/
def sitePosFinset (sd : SampleData) : Finset Nat := (sitePositions sd).toFinset

/-- Size of the intersection of the input files' site-position sets. -/
def sitePosIntersectionCard (files : List SampleData) : Nat :=
  match files with
  | [] => 0
  | f0 :: rest => (rest.foldl (fun acc sd => acc ∩ sitePosFinset sd) (sitePosFinset f0)).card

/-- Size of the union of the input files' site-position sets. -/
def sitePosUnionCard (files : List SampleData) : Nat :=
  (files.foldl (fun acc sd => acc ∪ sitePosFinset sd) ∅).card

/-- The set of (position, ancestral allele) join keys of one file. -/
def siteKeyFinset (sd : SampleData) : Finset (Nat × String) :=
  (sd.sites.map (fun s => (s.position, ancOf s))).toFinset

/-- Number of distinct (position, ancestral allele) pairs across the files. -/
def siteKeyUnionCard (files : List SampleData) : Nat :=
  (files.foldl (fun acc sd => acc ∪ siteKeyFinset sd) ∅).card

/-- The join key (Position, Ancestral Allele) of a combined-dataframe row. -/
def crowKey (r : CRow) : Nat × String := (r.position, r.anc)

/-- Invariant of the iterated outer join of run_combine_sampledata after
processing the files `processed`: every row carries one site-id slot per
processed file; a row's slot for file `i` points at a site of that file
bearing the row's position and ancestral allele; every site of every
processed file is pointed at by exactly one row; and the join keys are
pairwise distinct and cover exactly the processed files' key sets. -/
def dfInv (acc : List CRow) (processed : List SampleData) : Prop :=
  (∀ r ∈ acc, r.ids.length = processed.length) ∧
  (∀ (i : Nat) (sd : SampleData), processed[i]? = some sd →
    (∀ r ∈ acc, ∀ k : Nat, r.ids.getD i none = some k →
      ∃ s : Site, sd.sites[k]? = some s ∧ r.position = s.position ∧ r.anc = ancOf s) ∧
    (∀ k : Nat, k < sd.sites.length →
      acc.countP (fun r => decide (r.ids.getD i none = some k)) = 1)) ∧
  (acc.map crowKey).Nodup ∧
  (acc.map crowKey).toFinset = processed.foldl (fun a sd => a ∪ siteKeyFinset sd) ∅

/-!  make_sampledata_compatible (lines 637-660). -/

/-- A Python file-open mode (only "r" and "w" are relevant here). -/
inductive PyMode
  | read
  | write
deriving DecidableEq, Repr

/-- `open(path, mode)`: opening a missing file for reading raises
`FileNotFoundError`; otherwise the handle carries its mode. -/
def pyOpen (fileExists : Bool) (m : PyMode) : Except String PyMode :=
  match m with
  | .read => if fileExists then .ok .read else .error "FileNotFoundError"
  | .write => .ok .write

/-- `handle.writelines(lines)`: fails with `UnsupportedOperation` on a
handle opened for reading. -/
def pyWritelines (h : PyMode) (lines : List String) : Except String (List String) :=
  match h with
  | .read => .error "UnsupportedOperation: not writable"
  | .write => .ok lines

/-- `fn[:-len(".samples")] + "deleted.samples"` (line 654). -/
def deletedName (fn : String) : String :=
  (fn.dropRight ".samples".length) ++ "deleted.samples"

/-- The `new_names` list built by the loop (one per file after the first). -/
def compatNewNames (inputs : List (String × SampleData)) : List String :=
  match inputs with
  | [] => []
  | _ :: rest => rest.map (fun p => deletedName p.1)

/-- The deleted-site copies written by the loop: each later file keeps only
the sites whose position appears in the first (target) file. -/
def compatDeletedFiles (inputs : List (String × SampleData)) : List SampleData :=
  match inputs with
  | [] => []
  | (_, target) :: rest =>
    rest.map (fun p =>
      { p.2 with sites := p.2.sites.filter (fun s => decide (s.position ∈ sitePositions target)) })

/-- make_sampledata_compatible: build the deleted-site copies and their
names, then `open(args.output, "r")` — read mode — and `writelines` on the
resulting handle (lines 659-660). -/
def make_sampledata_compatible (inputs : List (String × SampleData)) (outputExists : Bool) :
    Except String (List String) :=
  let newNames := compatNewNames inputs
  let _small := compatDeletedFiles inputs
  match pyOpen outputExists PyMode.read with
  | .error e => .error e
  | .ok h => pyWritelines h newNames

/-!  run_snip_centromere (lines 490-516). -/

/-- One row of the centromeres CSV (`chrom`, `start`, `end`; the `end`
column is called `stop` because `end` is a Lean keyword). -/
structure CentromereRow where
  chrom : String
  start : Nat
  stop : Nat
deriving DecidableEq, Repr

/-- The `for row ... if row["chrom"] == args.chrom: break / else: raise`
loop: the first matching row's coordinates, or the ValueError. -/
def findCentromereRow (rows : List CentromereRow) (chrom : String) :
    Except String (Nat × Nat) :=
  match rows.find? (fun r => decide (r.chrom = chrom)) with
  | some r => .ok (r.start, r.stop)
  | none => .error "ValueError: Did not find row"

/-- `np.searchsorted(position, v)` on an ascending position list: the count
of entries strictly below `v`. -/
def searchsorted (l : List Nat) (v : Nat) : Nat :=
  l.countP (fun x => decide (x < v))

/-- `np.argmax`: index of the first maximal entry, `none` on an empty array
(where numpy raises). -/
def argmaxFirst (l : List Nat) : Option Nat :=
  (l.enum.foldl
    (fun best p =>
      match best with
      | none => some p
      | some b => if b.2 < p.2 then some p else best)
    none).map Prod.fst

/-- run_snip_centromere up to the interval handed to
`tsinfer.snip_centromere` and dumped: find the chromosome row, locate the
largest inter-site gap inside `[start, end]`, and return
`(real_start, real_end)`. The tree sequence is loaded only after the CSV
row is found, so only its site positions enter the model. -/
def runSnipCentromere (rows : List CentromereRow) (chrom : String) (positions : List Nat) :
    Except String (Nat × Nat) :=
  match findCentromereRow rows chrom with
  | .error e => .error e
  | .ok se =>
    let sIndex := searchsorted positions se.1
    let eIndex := searchsorted positions se.2
    let X := (positions.take (eIndex + 1)).drop sIndex
    let diffs := (X.drop 1).zipWith (fun a b => a - b) X
    match argmaxFirst diffs with
    | none => .error "ValueError: argmax of an empty sequence"
    | some j =>
      match X[j]?, X[j + 1]? with
      | some xj, some xj1 => .ok (xj + 1, xj1)
      | _, _ => .error "IndexError"

/-!  run_sequential_augment (lines 54-86). -/

/-- `base + ".augmented_{n}.nosimplify.trees"`. -/
def augFileName (base : String) (n : Nat) : String :=
  base ++ ".augmented_" ++ toString n ++ ".nosimplify.trees"

/-- The augmentation `while n < num_samples // 4` loop, tracking the
`final_file` local (`none` while unassigned). The `n = 0` guard is
unreachable from the entry point (`n` starts at 2 and doubles) and only
makes the recursion total. -/
def augLoop (base : String) (bound : Nat) (n : Nat) (ff : Option String) : Option String :=
  if hn : n = 0 then ff
  else if h : n < bound then augLoop base bound (n * 2) (some (augFileName base n)) else ff
termination_by bound - n
decreasing_by
  omega

/-- run_sequential_augment's control flow around `final_file`: after the
loop, `final_ts.dump(final_file)` raises NameError when no iteration ran. -/
def runSequentialAugment (base : String) (numSamples : Nat) : Except String String :=
  match augLoop base (numSamples / 4) 2 none with
  | none => .error "NameError: final_file is not defined"
  | some f => .ok f

/-!  run_combine_ukbb_1kg (lines 141-258). -/

/-- A mutation of the 1000-genomes ancestors tree sequence. -/
structure TgMutation where
  node : Nat
  derived : String
deriving DecidableEq, Repr

/-- A site of the 1000-genomes ancestors tree sequence. -/
structure TgSite where
  position : Nat
  mutations : List TgMutation
deriving DecidableEq, Repr

/-- A node-table row (flags, time, population, individual). -/
structure NodeRow where
  flags : Nat
  time : Int
  population : Int
  individual : Int
deriving DecidableEq, Repr

/-- An edge-table row. -/
structure EdgeRow where
  left : Nat
  right : Nat
  parent : Nat
  child : Nat
deriving DecidableEq, Repr

/-- A site-table row. -/
structure SiteRow where
  position : Nat
  ancestral_state : String
deriving DecidableEq, Repr

/-- A mutation-table row. -/
structure MutRow where
  site : Nat
  node : Nat
  derived_state : String
  parent : Int
deriving DecidableEq, Repr

/-- A tskit table collection restricted to the tables the code touches. -/
structure Tables where
  nodes : List NodeRow
  edges : List EdgeRow
  sites : List SiteRow
  mutations : List MutRow
deriving DecidableEq, Repr

/-- `intersecting_sites = ancestors_sites & ukbb_sites` as a duplicate-free
list (only membership in it is ever used). -/
def intersectingSites (ukbbPos tgPos : List Nat) : List Nat :=
  tgPos.dedup.filter (fun p => decide (p ∈ ukbbPos))

/-- Lines 160-168: rebuild the site and mutation tables over the
intersecting positions, each site re-rooted at ancestral state "0" with
its single mutation (asserted) re-derived to "1". -/
def subsetSitesLoop (inter : List Nat) :
    List TgSite → List SiteRow → List MutRow → Except String (List SiteRow × List MutRow)
  | [], accS, accM => .ok (accS, accM)
  | t :: rest, accS, accM =>
    if t.position ∈ inter then
      match t.mutations with
      | [m] =>
        subsetSitesLoop inter rest (accS ++ [{ position := t.position, ancestral_state := "0" }])
          (accM ++ [{ site := accS.length, node := m.node, derived_state := "1", parent := -1 }])
      | _ => .error "AssertionError: site does not have exactly one mutation"
    else subsetSitesLoop inter rest accS accM

/-- Ordering of `tables.sort()` on the site table (by position). -/
def siteRowLe (a b : SiteRow) : Prop := a.position ≤ b.position

instance : DecidableRel siteRowLe := fun a b => inferInstanceAs (Decidable (a.position ≤ b.position))

/-- The site and mutation tables of the written ancestors tree sequence of
combine-ukbb-1kg: the subset loop, then `tables.simplify(filter_sites=False)`
— which keeps every site and keeps each mutation's site and derived state
while remapping its node by some `nodeMap` — then the `+1` node shift of the
renumbering step, then the site sort of `tables.sort()` (an identity here
because tskit stores sites position-sorted). -/
def ukbbAncestorSiteTables (ukbbPos : List Nat) (tgSites : List TgSite)
    (nodeMap : Nat → Nat) : Except String (List SiteRow × List MutRow) :=
  match subsetSitesLoop (intersectingSites ukbbPos (tgSites.map TgSite.position)) tgSites [] [] with
  | .error e => .error e
  | .ok sm =>
    let muts := sm.2.map (fun m => { m with node := nodeMap m.node + 1 })
    .ok (List.insertionSort siteRowLe sm.1, muts)

/-- `np.max` over the node times (the caller guarantees a non-empty list,
as numpy raises on an empty one). -/
def npMax (l : List Int) : Int := l.foldl max (l.headD 0)

/-- Lines 173-200: the node-renumbering step of run_combine_ukbb_1kg.
A fresh node 0 (flags 1, time `max + 2`) is prepended; every old node
becomes a sample (`flags | 1`) with its time shifted by one; every edge
parent/child and mutation node reference is shifted by one. -/
def renumberTables (t : Tables) : Tables :=
  { nodes :=
      { flags := 1, time := npMax (t.nodes.map NodeRow.time) + 2,
        population := -1, individual := -1 } ::
      t.nodes.map (fun n => { n with flags := n.flags ||| 1, time := n.time + 1 }),
    edges := t.edges.map (fun e => { e with parent := e.parent + 1, child := e.child + 1 }),
    sites := t.sites,
    mutations := t.mutations.map (fun m => { m with node := m.node + 1 }) }

/-!  The command-line entry point (lines 728-833). -/

/-- The handler functions `set_defaults(func=...)` can dispatch to. -/
inductive CliHandler
  | run_simplify
  | run_sequential_augment
  | run_combine_ukbb_1kg
  | run_benchmark_tskit
  | run_benchmark_vcf
  | run_compute_1kg_ukbb_gnn
  | run_compute_ukbb_gnn
  | run_compute_1kg_gnn
  | run_compute_sgdp_gnn
  | run_compute_hgdp_gnn
  | run_snip_centromere
  | run_combine_sampledata
  | run_merge_sampledata
  | make_sampledata_compatible
deriving DecidableEq, Repr

/-- The subparsers registered by `main()` with their handlers, in
registration order. -/
def cliSubcommands : List (String × CliHandler) :=
  [("simplify", .run_simplify),
   ("sequential-augment", .run_sequential_augment),
   ("combine-ukbb-1kg", .run_combine_ukbb_1kg),
   ("benchmark-tskit", .run_benchmark_tskit),
   ("benchmark-vcf", .run_benchmark_vcf),
   ("compute-1kg-ukbb-gnn", .run_compute_1kg_ukbb_gnn),
   ("compute-ukbb-gnn", .run_compute_ukbb_gnn),
   ("compute-1kg-gnn", .run_compute_1kg_gnn),
   ("compute-sgdp-gnn", .run_compute_sgdp_gnn),
   ("compute-hgdp-gnn", .run_compute_hgdp_gnn),
   ("snip-centromere", .run_snip_centromere),
   ("combine-sampledata", .run_combine_sampledata),
   ("merge-sampledata", .run_merge_sampledata),
   ("make-sampledata-compatible", .make_sampledata_compatible)]

/-- `subparsers.required = True`. -/
def cliSubparsersRequired : Bool := true

/-- `args.func(args)`: the handler a command name dispatches to. -/
def cliDispatch (cmd : String) : Option CliHandler :=
  (cliSubcommands.find? (fun p => decide (p.1 = cmd))).map Prod.snd

/-!  Concrete example inputs used by the witnesses and counterexamples. -/

/-- A SampleData file with falsy (zero) sequence length and no sites. -/
def c5File0 : SampleData := { sequence_length := 0, num_samples := 0, sites := [] }

/-- A SampleData file with sequence length 7 and one site. -/
def c5File1 : SampleData :=
  { sequence_length := 7, num_samples := 1,
    sites := [{ position := 3, alleles := ["A", "C"], genotypes := [1] }] }

/-- A SampleData file with sequence length 5, used by the C5 witness. -/
def c5File2 : SampleData := { sequence_length := 5, num_samples := 0, sites := [] }

/-- Two-sample file with one site at position 5, derived allele "G". -/
def c2FileA : SampleData :=
  { sequence_length := 10, num_samples := 2,
    sites := [{ position := 5, alleles := ["A", "G"], genotypes := [0, 1] }] }

/-- Two-sample file with one site at position 5, derived allele "T"
(conflicting with `c2FileA`). -/
def c2FileB : SampleData :=
  { sequence_length := 10, num_samples := 2,
    sites := [{ position := 5, alleles := ["A", "T"], genotypes := [1, 0] }] }

/-- One-sample file with one site at position 5, ancestral allele "A". -/
def c3FileA : SampleData :=
  { sequence_length := 10, num_samples := 1,
    sites := [{ position := 5, alleles := ["A", "G"], genotypes := [1] }] }

/-- One-sample file with one site at position 5, ancestral allele "C"
(conflicting with `c3FileA`). -/
def c3FileB : SampleData :=
  { sequence_length := 10, num_samples := 1,
    sites := [{ position := 5, alleles := ["C", "T"], genotypes := [0] }] }

/-- One-sample file with sites at positions 1 and 4. -/
def c1File0 : SampleData :=
  { sequence_length := 10, num_samples := 1,
    sites := [{ position := 1, alleles := ["A", "G"], genotypes := [0] },
              { position := 4, alleles := ["A", "C"], genotypes := [1] }] }

/-- Two-sample file with sites at positions 2 and 4. -/
def c1File1 : SampleData :=
  { sequence_length := 10, num_samples := 2,
    sites := [{ position := 2, alleles := ["A", "T"], genotypes := [1, 0] },
              { position := 4, alleles := ["A", "C"], genotypes := [0, 1] }] }

/-- Node/edge/site/mutation tables used by the C10 witness. -/
def c10ExTables : Tables :=
  { nodes := [{ flags := 0, time := 5, population := -1, individual := -1 },
              { flags := 1, time := 0, population := -1, individual := -1 }],
    edges := [{ left := 0, right := 10, parent := 1, child := 0 }],
    sites := [],
    mutations := [{ site := 0, node := 1, derived_state := "1", parent := -1 }] }

/-- The 1000-genomes ancestors sites used by the C4 witness. -/
def c4ExTgSites : List TgSite :=
  [{ position := 5, mutations := [{ node := 3, derived := "G" }] },
   { position := 6, mutations := [{ node := 2, derived := "T" }] },
   { position := 7, mutations := [{ node := 4, derived := "C" }] }]

/-!  Claim theorems. -/

/-- C7: the command-line entry point registers exactly the fourteen
subcommands in the spec's order, a subcommand is required, the names are
pairwise distinct, and each name dispatches to its single handler. -/
theorem c7_cli_subcommands :
    cliSubcommands.map Prod.fst =
      ["simplify", "sequential-augment", "combine-ukbb-1kg", "benchmark-tskit",
       "benchmark-vcf", "compute-1kg-ukbb-gnn", "compute-ukbb-gnn", "compute-1kg-gnn",
       "compute-sgdp-gnn", "compute-hgdp-gnn", "snip-centromere", "combine-sampledata",
       "merge-sampledata", "make-sampledata-compatible"] ∧
    cliSubparsersRequired = true ∧
    (cliSubcommands.map Prod.fst).Nodup ∧
    (∀ p ∈ cliSubcommands, cliDispatch p.1 = some p.2) :=
  ⟨rfl, rfl, by decide, by decide⟩

/-- C9: every invocation of make-sampledata-compatible that reaches the
final recording step fails, because the output path is opened in read mode
before `writelines`: `UnsupportedOperation` when the output file exists,
`FileNotFoundError` otherwise; the new-name list is never written. -/
theorem c9_make_compatible_write_failure (inputs : List (String × SampleData))
    (outputExists : Bool) :
    (outputExists = true →
      make_sampledata_compatible inputs outputExists =
        .error "UnsupportedOperation: not writable") ∧
    (outputExists = false →
      make_sampledata_compatible inputs outputExists = .error "FileNotFoundError") := by
  cases outputExists <;>
    simp [make_sampledata_compatible, pyOpen, pyWritelines]

/-- Witness for C9 at a concrete invocation, for both output states. -/
theorem c9_witness :
    make_sampledata_compatible [] true = .error "UnsupportedOperation: not writable" ∧
    make_sampledata_compatible [] false = .error "FileNotFoundError" :=
  ⟨(c9_make_compatible_write_failure [] true).1 rfl,
   (c9_make_compatible_write_failure [] false).2 rfl⟩

/-- C6: when no centromere-CSV row matches the requested chromosome,
snip-centromere raises the ValueError, whatever the (not yet loaded) tree
sequence's site positions are, so no output is written. -/
theorem c6_snip_centromere_missing_chrom (rows : List CentromereRow) (chrom : String)
    (positions : List Nat) (h : ∀ r ∈ rows, r.chrom ≠ chrom) :
    runSnipCentromere rows chrom positions = .error "ValueError: Did not find row" := by
  have hf : rows.find? (fun r => decide (r.chrom = chrom)) = none := by
    apply List.find?_eq_none.mpr
    intro r hr
    simpa using h r hr
  simp [runSnipCentromere, findCentromereRow, hf]

/-- Witness for C6 on a concrete CSV and chromosome name. -/
theorem c6_witness :
    (∀ r ∈ [CentromereRow.mk "chr1" 3 8], r.chrom ≠ "chr20") ∧
    runSnipCentromere [CentromereRow.mk "chr1" 3 8] "chr20" [1, 2, 3] =
      .error "ValueError: Did not find row" :=
  ⟨by decide, c6_snip_centromere_missing_chrom _ _ _ (by decide)⟩

/-- The augmentation loop never loses an already-assigned `final_file`. -/
theorem augLoop_isSome (base : String) (bound : Nat) :
    ∀ k n f, bound - n ≤ k → (augLoop base bound n (some f)).isSome = true := by
  intro k
  induction k with
  | zero =>
    intro n f h
    rw [augLoop]
    split
    · rfl
    · rw [dif_neg (by omega : ¬ n < bound)]
      rfl
  | succ k ih =>
    intro n f h
    rw [augLoop]
    split
    · rfl
    · rename_i hn
      by_cases hb : n < bound
      · rw [dif_pos hb]
        exact ih (n * 2) _ (by omega)
      · rw [dif_neg hb]
        rfl

/-- C8: with fewer than 12 samples, `2 < num_samples // 4` fails, no
augmentation round runs, and the final dump raises NameError on the
unassigned `final_file`; with 12 or more samples the loop runs at least
once, `final_file` is assigned, and the final dump is reached. -/
theorem c8_sequential_augment_threshold (base : String) (numSamples : Nat) :
    (numSamples < 12 →
      runSequentialAugment base numSamples = .error "NameError: final_file is not defined") ∧
    (12 ≤ numSamples → ∃ f, runSequentialAugment base numSamples = .ok f) := by
  constructor
  · intro h
    have hb : ¬ 2 < numSamples / 4 := by omega
    unfold runSequentialAugment
    rw [augLoop, dif_neg (by omega : ¬ (2 : Nat) = 0), dif_neg hb]
  · intro h
    have hb : 2 < numSamples / 4 := by omega
    have h1 : augLoop base (numSamples / 4) 2 none
        = augLoop base (numSamples / 4) (2 * 2) (some (augFileName base 2)) := by
      rw [augLoop, dif_neg (by omega : ¬ (2 : Nat) = 0), dif_pos hb]
    have h2 : (augLoop base (numSamples / 4) (2 * 2) (some (augFileName base 2))).isSome = true :=
      augLoop_isSome base (numSamples / 4) (numSamples / 4) (2 * 2) (augFileName base 2)
        (by omega)
    obtain ⟨f, hf⟩ := Option.isSome_iff_exists.mp h2
    refine ⟨f, ?_⟩
    unfold runSequentialAugment
    rw [h1, hf]

/-- Witness for C8 on both sides of the 12-sample threshold. -/
theorem c8_witness :
    runSequentialAugment "ukbb_chr20" 11 = .error "NameError: final_file is not defined" ∧
    (∃ f, runSequentialAugment "ukbb_chr20" 12 = .ok f) :=
  ⟨(c8_sequential_augment_threshold "ukbb_chr20" 11).1 (by omega),
   (c8_sequential_augment_threshold "ukbb_chr20" 12).2 (by omega)⟩

/-- A `foldl max` is at least its initial value. -/
theorem foldl_max_le_init (l : List Int) : ∀ init : Int, init ≤ l.foldl max init := by
  induction l with
  | nil =>
    intro a
    simp
  | cons x xs ih =>
    intro a
    simpa using le_trans (le_max_left a x) (ih (max a x))

/-- Every member of a list is at most its `foldl max`. -/
theorem mem_le_foldl_max (l : List Int) : ∀ (init x : Int), x ∈ l → x ≤ l.foldl max init := by
  induction l with
  | nil => intro init x hx; cases hx
  | cons y ys ih =>
    intro init x hx
    rw [List.foldl_cons]
    rcases List.mem_cons.mp hx with rfl | h
    · exact le_trans (le_max_right init x) (foldl_max_le_init ys (max init x))
    · exact ih (max init y) x h

/-- `np.max` bounds every entry of its (non-empty) argument. -/
theorem mem_le_npMax (l : List Int) (x : Int) (hx : x ∈ l) : x ≤ npMax l :=
  mem_le_foldl_max l _ x hx

/-- C10: in the renumbered tables of combine-ukbb-1kg, every node carries
the sample flag (bit 0), every node time is strictly positive, node 0 is
strictly older than every other node, and each edge parent, edge child and
mutation node equals the corresponding pre-renumbering reference plus one
(mutation site and derived state are untouched). -/
theorem c10_renumber_invariants (t : Tables) (hne : t.nodes ≠ [])
    (hnn : ∀ n ∈ t.nodes, 0 ≤ n.time) :
    (∀ n ∈ (renumberTables t).nodes, n.flags.testBit 0 = true) ∧
    (∀ n ∈ (renumberTables t).nodes, 0 < n.time) ∧
    (∀ (k : Nat) (n : NodeRow), (renumberTables t).nodes[k]? = some n → k ≠ 0 →
      ∀ (n0 : NodeRow), (renumberTables t).nodes[0]? = some n0 → n.time < n0.time) ∧
    (∀ (k : Nat) (e : EdgeRow), (renumberTables t).edges[k]? = some e →
      ∃ e0 : EdgeRow, t.edges[k]? = some e0 ∧ e.parent = e0.parent + 1 ∧
        e.child = e0.child + 1) ∧
    (∀ (k : Nat) (m : MutRow), (renumberTables t).mutations[k]? = some m →
      ∃ m0 : MutRow, t.mutations[k]? = some m0 ∧ m.node = m0.node + 1 ∧
        m.site = m0.site ∧ m.derived_state = m0.derived_state) := by
  have hmax : 0 ≤ npMax (t.nodes.map NodeRow.time) := by
    obtain ⟨n0, hn0⟩ := List.exists_mem_of_ne_nil t.nodes hne
    exact le_trans (hnn n0 hn0) (mem_le_npMax _ _ (List.mem_map_of_mem NodeRow.time hn0))
  refine ⟨?_, ?_, ?_, ?_, ?_⟩
  · intro n hn
    simp only [renumberTables] at hn
    rcases List.mem_cons.mp hn with rfl | hn
    · show Nat.testBit 1 0 = true
      decide
    · rcases List.mem_map.mp hn with ⟨n0, _, rfl⟩
      show (n0.flags ||| 1).testBit 0 = true
      simp [Nat.testBit_or]
  · intro n hn
    simp only [renumberTables] at hn
    rcases List.mem_cons.mp hn with rfl | hn
    · show 0 < npMax (t.nodes.map NodeRow.time) + 2
      omega
    · rcases List.mem_map.mp hn with ⟨n0, hn0, rfl⟩
      have := hnn n0 hn0
      show 0 < n0.time + 1
      omega
  · intro k n hk hk0 n0 h0
    simp only [renumberTables, List.getElem?_cons_zero, Option.some.injEq] at h0
    obtain ⟨j, rfl⟩ := Nat.exists_eq_succ_of_ne_zero hk0
    simp only [renumberTables, List.getElem?_cons_succ, List.getElem?_map] at hk
    rcases hm : t.nodes[j]? with _ | nj
    · rw [hm] at hk; cases hk
    · rw [hm] at hk
      have hmem : nj ∈ t.nodes := List.getElem?_mem hm
      have h1 : nj.time ≤ npMax (t.nodes.map NodeRow.time) :=
        mem_le_npMax _ _ (List.mem_map_of_mem NodeRow.time hmem)
      injection hk with hk
      subst hk
      subst h0
      show nj.time + 1 < npMax (t.nodes.map NodeRow.time) + 2
      omega
  · intro k e hk
    simp only [renumberTables, List.getElem?_map] at hk
    rcases hm : t.edges[k]? with _ | e0
    · rw [hm] at hk; cases hk
    · rw [hm] at hk
      injection hk with hk
      subst hk
      exact ⟨e0, rfl, rfl, rfl⟩
  · intro k m hk
    simp only [renumberTables, List.getElem?_map] at hk
    rcases hm : t.mutations[k]? with _ | m0
    · rw [hm] at hk; cases hk
    · rw [hm] at hk
      injection hk with hk
      subst hk
      exact ⟨m0, rfl, rfl, rfl, rfl⟩

/-- Witness for C10 on concrete tables. -/
theorem c10_witness :
    (c10ExTables.nodes ≠ [] ∧ ∀ n ∈ c10ExTables.nodes, 0 ≤ n.time) ∧
    ((∀ n ∈ (renumberTables c10ExTables).nodes, n.flags.testBit 0 = true) ∧
     (∀ n ∈ (renumberTables c10ExTables).nodes, 0 < n.time) ∧
     (∀ (k : Nat) (n : NodeRow), (renumberTables c10ExTables).nodes[k]? = some n → k ≠ 0 →
       ∀ (n0 : NodeRow), (renumberTables c10ExTables).nodes[0]? = some n0 →
         n.time < n0.time) ∧
     (∀ (k : Nat) (e : EdgeRow), (renumberTables c10ExTables).edges[k]? = some e →
       ∃ e0 : EdgeRow, c10ExTables.edges[k]? = some e0 ∧ e.parent = e0.parent + 1 ∧
         e.child = e0.child + 1) ∧
     (∀ (k : Nat) (m : MutRow), (renumberTables c10ExTables).mutations[k]? = some m →
       ∃ m0 : MutRow, c10ExTables.mutations[k]? = some m0 ∧ m.node = m0.node + 1 ∧
         m.site = m0.site ∧ m.derived_state = m0.derived_state)) :=
  ⟨⟨by decide, by decide⟩,
   c10_renumber_invariants c10ExTables (by decide) (by decide)⟩

/-- C5 counterexample: a first input file with (falsy) sequence length 0
followed by a file of different sequence length raises no assertion error —
the recorded length is simply replaced — and both subcommands run to
completion and write an output file. -/
theorem c5_sequence_length_counterexample :
    c5File1.sequence_length ≠ c5File0.sequence_length ∧
    runCombineSampledata [c5File0, c5File1] =
      .ok { sequence_length := some 7,
            sites := [{ position := 3, genotypes := [1], alleles := [some "A", some "C"] }] } ∧
    runMergeSampledata [c5File0, c5File1] = .ok { sequence_length := some 7, sites := [] } :=
  ⟨by decide, rfl, rfl⟩

/-- Once a nonzero length is recorded, a later file of different length
makes the loading loop fail with the assertion error. -/
theorem loadSeqLenLoop_error_of_mismatch :
    ∀ (rest : List SampleData) (s : Nat), s ≠ 0 →
      (∃ sd ∈ rest, sd.sequence_length ≠ s) →
      loadSeqLenLoop rest (some s) = .error "AssertionError: sequence length mismatch" := by
  intro rest
  induction rest with
  | nil =>
    intro s _ hex
    obtain ⟨sd, hmem, _⟩ := hex
    cases hmem
  | cons f fs ih =>
    intro s hs hex
    show (if s ≠ 0 then
            if s = f.sequence_length then loadSeqLenLoop fs (some s)
            else .error "AssertionError: sequence length mismatch"
          else loadSeqLenLoop fs (some f.sequence_length)) = _
    rw [if_pos hs]
    by_cases he : s = f.sequence_length
    · rw [if_pos he]
      apply ih s hs
      obtain ⟨sd, hmem, hne⟩ := hex
      rcases List.mem_cons.mp hmem with rfl | hmem2
      · exact absurd he.symm hne
      · exact ⟨sd, hmem2, hne⟩
    · rw [if_neg he]

/-- C5 (amended): if the FIRST input file's sequence length is nonzero
(truthy), then whenever any input file's sequence length differs from it,
combine-sampledata and merge-sampledata fail with the assertion error
raised during loading, before any output file is created; a zero recorded
length is instead silently replaced (see the counterexample). -/
theorem c5_sequence_length_assertion (files : List SampleData) (f0 : SampleData)
    (rest : List SampleData) (hf : files = f0 :: rest) (h0 : f0.sequence_length ≠ 0)
    (hmis : ∃ sd ∈ files, sd.sequence_length ≠ f0.sequence_length) :
    runCombineSampledata files = .error "AssertionError: sequence length mismatch" ∧
    runMergeSampledata files = .error "AssertionError: sequence length mismatch" := by
  subst hf
  have hload : loadSequenceLengths (f0 :: rest) =
      .error "AssertionError: sequence length mismatch" := by
    show loadSeqLenLoop rest (some f0.sequence_length) = _
    apply loadSeqLenLoop_error_of_mismatch rest f0.sequence_length h0
    obtain ⟨sd, hmem, hne⟩ := hmis
    rcases List.mem_cons.mp hmem with rfl | hmem2
    · exact absurd rfl hne
    · exact ⟨sd, hmem2, hne⟩
  constructor
  · show (match loadSequenceLengths (f0 :: rest) with
          | .error e => Except.error e
          | .ok seqLen => _) = _
    rw [hload]
  · show (match loadSequenceLengths (f0 :: rest) with
          | .error e => Except.error e
          | .ok seqLen => _) = _
    rw [hload]

/-- Witness for the amended C5 on concrete mismatched files. -/
theorem c5_witness :
    (c5File2.sequence_length ≠ 0 ∧
     ∃ sd ∈ [c5File2, c5File1], sd.sequence_length ≠ c5File2.sequence_length) ∧
    (runCombineSampledata [c5File2, c5File1] =
       .error "AssertionError: sequence length mismatch" ∧
     runMergeSampledata [c5File2, c5File1] =
       .error "AssertionError: sequence length mismatch") :=
  ⟨⟨by decide, ⟨c5File1, by decide, by decide⟩⟩,
   c5_sequence_length_assertion [c5File2, c5File1] c5File2 [c5File1] rfl (by decide)
     ⟨c5File1, by decide, by decide⟩⟩

/-- Characterisation of the site-subsetting loop of run_combine_ukbb_1kg:
on success the accumulated sites are the intersecting tree-sequence sites
re-rooted at ancestral state "0", the mutation table is index-aligned with
the site table, and every mutation row carries its own site index and
derived state "1". -/
theorem subsetSitesLoop_invariant :
    ∀ (ts : List TgSite) (inter : List Nat) (accS : List SiteRow) (accM : List MutRow)
      (S : List SiteRow) (M : List MutRow),
      subsetSitesLoop inter ts accS accM = .ok (S, M) →
      accM.length = accS.length →
      (∀ (k : Nat) (m : MutRow), accM[k]? = some m → m.site = k ∧ m.derived_state = "1") →
      S = accS ++ (ts.filter (fun t => decide (t.position ∈ inter))).map
            (fun t => { position := t.position, ancestral_state := "0" }) ∧
      M.length = S.length ∧
      (∀ (k : Nat) (m : MutRow), M[k]? = some m → m.site = k ∧ m.derived_state = "1") := by
  intro ts
  induction ts with
  | nil =>
    intro inter accS accM S M hok hlen hprop
    simp only [subsetSitesLoop] at hok
    injection hok with h1
    have hS : accS = S := congrArg Prod.fst h1
    have hM : accM = M := congrArg Prod.snd h1
    subst hS
    subst hM
    refine ⟨by simp, ?_, hprop⟩
    rw [← hlen]
  | cons t rest ih =>
    intro inter accS accM S M hok hlen hprop
    obtain ⟨tpos, tmuts⟩ := t
    by_cases hp : tpos ∈ inter
    · have hp2 : (({ position := tpos, mutations := tmuts } : TgSite)).position ∈ inter := hp
      rw [subsetSitesLoop, if_pos hp2] at hok
      rcases tmuts with _ | ⟨m, _ | ⟨m2, ms2⟩⟩
      · have hbad : (Except.error "AssertionError: site does not have exactly one mutation"
            : Except String (List SiteRow × List MutRow)) = .ok (S, M) := hok
        cases hbad
      · have hok2 : subsetSitesLoop inter rest
            (accS ++ [{ position := tpos, ancestral_state := "0" }])
            (accM ++ [{ site := accS.length, node := m.node, derived_state := "1",
                        parent := -1 }]) = .ok (S, M) := hok
        have hrec := ih inter
          (accS ++ [{ position := tpos, ancestral_state := "0" }])
          (accM ++ [{ site := accS.length, node := m.node, derived_state := "1", parent := -1 }])
          S M hok2
          (by simp [hlen])
          (by
            intro k mm hm
            by_cases hk : k < accM.length
            · rw [List.getElem?_append_left hk] at hm
              exact hprop k mm hm
            · have hk2 : accM.length ≤ k := Nat.le_of_not_lt hk
              rw [List.getElem?_append_right hk2] at hm
              rcases hd : k - accM.length with _ | d
              · rw [hd, List.getElem?_cons_zero] at hm
                injection hm with hm
                subst hm
                refine ⟨?_, rfl⟩
                show accS.length = k
                omega
              · rw [hd, List.getElem?_cons_succ] at hm
                simp at hm)
        obtain ⟨hS, hML, hMP⟩ := hrec
        refine ⟨?_, hML, hMP⟩
        rw [hS]
        have hfil : (({ position := tpos, mutations := [m] } : TgSite) :: rest).filter
            (fun t => decide (t.position ∈ inter)) =
            ({ position := tpos, mutations := [m] } : TgSite) ::
              rest.filter (fun t => decide (t.position ∈ inter)) := by
          rw [List.filter_cons]
          simp [hp]
        rw [hfil, List.map_cons]
        simp [List.append_assoc]
      · have hbad : (Except.error "AssertionError: site does not have exactly one mutation"
            : Except String (List SiteRow × List MutRow)) = .ok (S, M) := hok
        cases hbad
    · have hp2 : ¬ (({ position := tpos, mutations := tmuts } : TgSite)).position ∈ inter := hp
      rw [subsetSitesLoop, if_neg hp2] at hok
      have hrec := ih inter accS accM S M hok hlen hprop
      obtain ⟨hS, hML, hMP⟩ := hrec
      refine ⟨?_, hML, hMP⟩
      have hfil : (({ position := tpos, mutations := tmuts } : TgSite) :: rest).filter
          (fun t => decide (t.position ∈ inter)) =
          rest.filter (fun t => decide (t.position ∈ inter)) := by
        rw [List.filter_cons]
        simp [hp]
      rw [hS, hfil]

/-- A list whose entries satisfy a predicate exactly at index `k` filters
to the singleton of its `k`-th entry. -/
theorem filter_singleton_of_index {α : Type} :
    ∀ (l : List α) (p : α → Bool) (k : Nat),
      (∀ (j : Nat) (a : α), l[j]? = some a → (p a = true ↔ j = k)) → k < l.length →
      ∃ a, l[k]? = some a ∧ l.filter p = [a] := by
  intro l
  induction l with
  | nil =>
    intro p k _ hk
    simp at hk
  | cons x xs ih =>
    intro p k h hk
    cases k with
    | zero =>
      have hx : p x = true := (h 0 x List.getElem?_cons_zero).mpr rfl
      have hxs : ∀ a ∈ xs, ¬ p a = true := by
        intro a ha hpa
        obtain ⟨j, hj⟩ := List.getElem?_of_mem ha
        have h2 := (h (j + 1) a (by rw [List.getElem?_cons_succ]; exact hj)).mp hpa
        omega
      refine ⟨x, List.getElem?_cons_zero, ?_⟩
      rw [List.filter_cons_of_pos hx, List.filter_eq_nil_iff.mpr hxs]
    | succ k =>
      have hx : ¬ p x = true := by
        intro hpa
        have h2 := (h 0 x List.getElem?_cons_zero).mp hpa
        omega
      have hk2 : k < xs.length := by
        simp only [List.length_cons] at hk
        omega
      obtain ⟨a, ha1, ha2⟩ := ih p k
        (by
          intro j a hj
          have h2 := h (j + 1) a (by rw [List.getElem?_cons_succ]; exact hj)
          exact ⟨fun hp3 => by have := h2.mp hp3; omega, fun hjk => h2.mpr (by omega)⟩)
        hk2
      refine ⟨a, by rw [List.getElem?_cons_succ]; exact ha1, ?_⟩
      rw [List.filter_cons_of_neg (by simpa using hx), ha2]

/-- C4: the sites table of the ancestors tree sequence written by
combine-ukbb-1kg holds exactly one site for each position in the
intersection of the UKBB site positions and the 1000-genomes ancestors
site positions, each with ancestral state "0" and exactly one mutation
with derived state "1" (whatever node remap the intervening simplify
applies). -/
theorem c4_ukbb_intersection_sites (ukbbPos : List Nat) (tgSites : List TgSite)
    (nodeMap : Nat → Nat)
    (hsorted : (tgSites.map TgSite.position).Sorted (· < ·))
    (S : List SiteRow) (M : List MutRow)
    (hok : ukbbAncestorSiteTables ukbbPos tgSites nodeMap = .ok (S, M)) :
    (∀ p : Nat, p ∈ S.map SiteRow.position ↔
      (p ∈ tgSites.map TgSite.position ∧ p ∈ ukbbPos)) ∧
    (S.map SiteRow.position).Nodup ∧
    (∀ s ∈ S, s.ancestral_state = "0") ∧
    M.length = S.length ∧
    (∀ k : Nat, k < S.length →
      (M.filter (fun m => decide (m.site = k))).map MutRow.derived_state = ["1"]) := by
  unfold ukbbAncestorSiteTables at hok
  rcases h0 : subsetSitesLoop (intersectingSites ukbbPos (tgSites.map TgSite.position))
      tgSites [] [] with e | sm
  · rw [h0] at hok
    cases hok
  · rw [h0] at hok
    obtain ⟨S0, M0⟩ := sm
    injection hok with h1
    have hS : S = List.insertionSort siteRowLe S0 := (congrArg Prod.fst h1).symm
    have hM : M = M0.map (fun m => { m with node := nodeMap m.node + 1 }) :=
      (congrArg Prod.snd h1).symm
    have hinv := subsetSitesLoop_invariant tgSites
      (intersectingSites ukbbPos (tgSites.map TgSite.position)) [] [] S0 M0 h0 rfl
      (by intro k m hm; rw [List.getElem?_nil] at hm; cases hm)
    obtain ⟨hS0, hML, hMP⟩ := hinv
    rw [List.nil_append] at hS0
    have hposEq : S0.map SiteRow.position =
        (tgSites.filter (fun t =>
          decide (t.position ∈ intersectingSites ukbbPos (tgSites.map TgSite.position)))).map
          TgSite.position := by
      rw [hS0, List.map_map]
      rfl
    have hsortedF : (S0.map SiteRow.position).Sorted (· < ·) := by
      rw [hposEq]
      exact hsorted.sublist (List.Sublist.map TgSite.position (List.filter_sublist tgSites))
    have hsorted0 : S0.Sorted siteRowLe := by
      have h2 : S0.Pairwise (fun a b => a.position < b.position) :=
        (List.pairwise_map.mp hsortedF)
      exact h2.imp (fun h => Nat.le_of_lt h)
    have hSS : S = S0 := by
      rw [hS]
      exact hsorted0.insertionSort_eq
    refine ⟨?_, ?_, ?_, ?_, ?_⟩
    · intro p
      rw [hSS, hposEq]
      constructor
      · intro hmem
        obtain ⟨t, htf, rfl⟩ := List.mem_map.mp hmem
        obtain ⟨ht, hpt⟩ := List.mem_filter.mp htf
        have hin : t.position ∈ intersectingSites ukbbPos (tgSites.map TgSite.position) := by
          simpa using hpt
        simp only [intersectingSites, List.mem_filter, List.mem_dedup] at hin
        exact ⟨hin.1, by simpa using hin.2⟩
      · rintro ⟨hp1, hp2⟩
        obtain ⟨t, ht, rfl⟩ := List.mem_map.mp hp1
        refine List.mem_map.mpr ⟨t, List.mem_filter.mpr ⟨ht, ?_⟩, rfl⟩
        simp only [intersectingSites, List.mem_filter, List.mem_dedup, decide_eq_true_eq]
        exact ⟨List.mem_map.mpr ⟨t, ht, rfl⟩, by simpa using hp2⟩
    · rw [hSS]
      exact hsortedF.nodup
    · intro s hs
      rw [hSS, hS0] at hs
      obtain ⟨t, _, rfl⟩ := List.mem_map.mp hs
      rfl
    · rw [hM, hSS, List.length_map]
      exact hML
    · intro k hk
      have hMidx : ∀ (j : Nat) (m : MutRow), M[j]? = some m →
          m.site = j ∧ m.derived_state = "1" := by
        intro j m hj
        rw [hM, List.getElem?_map] at hj
        rcases hj0 : M0[j]? with _ | m0
        · rw [hj0] at hj
          cases hj
        · rw [hj0] at hj
          injection hj with hj
          subst hj
          have := hMP j m0 hj0
          exact ⟨this.1, this.2⟩
      have hkM : k < M.length := by
        rw [hM, List.length_map, hML, ← hSS]
        exact hk
      obtain ⟨a, ha1, ha2⟩ := filter_singleton_of_index M
        (fun m => decide (m.site = k)) k
        (by
          intro j m hj
          have h2 := hMidx j m hj
          constructor
          · intro hp3
            have : m.site = k := by simpa using hp3
            omega
          · intro hjk
            subst hjk
            simp [h2.1])
        hkM
      rw [ha2, List.map_cons, List.map_nil, (hMidx k a ha1).2]

/-- Witness for C4 on concrete UKBB positions and 1000-genomes sites. -/
theorem c4_witness :
    ((c4ExTgSites.map TgSite.position).Sorted (· < ·) ∧
     ukbbAncestorSiteTables [5, 7] c4ExTgSites (fun n => n) =
       .ok ([{ position := 5, ancestral_state := "0" },
             { position := 7, ancestral_state := "0" }],
            [{ site := 0, node := 4, derived_state := "1", parent := -1 },
             { site := 1, node := 5, derived_state := "1", parent := -1 }])) ∧
    ((∀ p : Nat, p ∈ ([{ position := 5, ancestral_state := "0" },
          { position := 7, ancestral_state := "0" }] : List SiteRow).map SiteRow.position ↔
        (p ∈ c4ExTgSites.map TgSite.position ∧ p ∈ [5, 7])) ∧
     (([{ position := 5, ancestral_state := "0" },
        { position := 7, ancestral_state := "0" }] : List SiteRow).map SiteRow.position).Nodup ∧
     (∀ s ∈ ([{ position := 5, ancestral_state := "0" },
        { position := 7, ancestral_state := "0" }] : List SiteRow), s.ancestral_state = "0") ∧
     ([{ site := 0, node := 4, derived_state := "1", parent := -1 },
       { site := 1, node := 5, derived_state := "1", parent := -1 }] : List MutRow).length =
       ([{ position := 5, ancestral_state := "0" },
         { position := 7, ancestral_state := "0" }] : List SiteRow).length ∧
     (∀ k : Nat, k < ([{ position := 5, ancestral_state := "0" },
          { position := 7, ancestral_state := "0" }] : List SiteRow).length →
        (([{ site := 0, node := 4, derived_state := "1", parent := -1 },
           { site := 1, node := 5, derived_state := "1", parent := -1 }] : List MutRow).filter
            (fun m => decide (m.site = k))).map MutRow.derived_state = ["1"])) :=
  ⟨⟨by decide, rfl⟩,
   c4_ukbb_intersection_sites [5, 7] c4ExTgSites (fun n => n) (by decide) _ _ rfl⟩

/-!  Generic list lemmas used by the merge/combine proofs. -/

theorem optGetD_append_left {α : Type} (l l2 : List (Option α)) (n : Nat) (hn : n < l.length) :
    (l ++ l2).getD n none = l.getD n none := by
  rw [List.getD_eq_getElem?_getD, List.getD_eq_getElem?_getD, List.getElem?_append_left hn]

theorem optGetD_append_self {α : Type} (l : List (Option α)) (x : Option α) :
    (l ++ [x]).getD l.length none = x := by
  rw [List.getD_eq_getElem?_getD, List.getElem?_append_right (Nat.le_refl _)]
  simp

theorem optGetD_replicate_append {α : Type} (i n : Nat) (x : Option α) (hn : n < i) :
    (List.replicate i (none : Option α) ++ [x]).getD n none = none := by
  rw [List.getD_eq_getElem?_getD, List.getElem?_append_left (by simpa using hn),
    List.getElem?_replicate]
  simp [hn]

theorem optGetD_replicate_append_self {α : Type} (i : Nat) (x : Option α) :
    (List.replicate i (none : Option α) ++ [x]).getD i none = x := by
  have h := optGetD_append_self (List.replicate i (none : Option α)) x
  simpa using h

theorem optGetD_none_of_le {α : Type} (l : List (Option α)) (n : Nat) (hn : l.length ≤ n) :
    l.getD n none = none := by
  rw [List.getD_eq_getElem?_getD, List.getElem?_eq_none hn]
  rfl

theorem modifyAt_length {α : Type} :
    ∀ (l : List α) (i : Nat) (f : α → α), (modifyAt l i f).length = l.length := by
  intro l
  induction l with
  | nil => intro i f; rfl
  | cons x xs ih =>
    intro i f
    cases i with
    | zero => rfl
    | succ i => simp [modifyAt, ih]

theorem modifyAt_getElem_self {α : Type} :
    ∀ (l : List α) (i : Nat) (f : α → α), (modifyAt l i f)[i]? = (l[i]?).map f := by
  intro l
  induction l with
  | nil => intro i f; cases i <;> rfl
  | cons x xs ih =>
    intro i f
    cases i with
    | zero =>
      show (f x :: xs)[0]? = Option.map f (x :: xs)[0]?
      rw [List.getElem?_cons_zero, List.getElem?_cons_zero]
      rfl
    | succ i =>
      show (x :: modifyAt xs i f)[i + 1]? = Option.map f (x :: xs)[i + 1]?
      rw [List.getElem?_cons_succ, List.getElem?_cons_succ]
      exact ih i f

theorem modifyAt_getElem_ne {α : Type} :
    ∀ (l : List α) (i j : Nat) (f : α → α), i ≠ j → (modifyAt l i f)[j]? = l[j]? := by
  intro l
  induction l with
  | nil => intro i j f _; cases i <;> rfl
  | cons x xs ih =>
    intro i j f hij
    cases i with
    | zero =>
      cases j with
      | zero => exact absurd rfl hij
      | succ j =>
        show (f x :: xs)[j + 1]? = (x :: xs)[j + 1]?
        rw [List.getElem?_cons_succ, List.getElem?_cons_succ]
    | succ i =>
      cases j with
      | zero =>
        show (x :: modifyAt xs i f)[0]? = (x :: xs)[0]?
        rw [List.getElem?_cons_zero, List.getElem?_cons_zero]
      | succ j =>
        show (x :: modifyAt xs i f)[j + 1]? = (x :: xs)[j + 1]?
        rw [List.getElem?_cons_succ, List.getElem?_cons_succ]
        exact ih i j f (by omega)

theorem setSegment_length (row : List Int) (c : Nat) (seg : List Int)
    (hb : c + seg.length ≤ row.length) : (setSegment row c seg).length = row.length := by
  simp only [setSegment, List.length_append, List.length_take, List.length_drop]
  omega

theorem setSegment_getElem_left (row : List Int) (c : Nat) (seg : List Int) (c2 : Nat)
    (h2 : c2 < c) (hc : c ≤ row.length) : (setSegment row c seg)[c2]? = row[c2]? := by
  rw [setSegment, List.getElem?_append_left
      (by simp only [List.length_append, List.length_take]; omega),
    List.getElem?_append_left (by simp only [List.length_take]; omega),
    List.getElem?_take, if_pos h2]

theorem setSegment_getElem_mid (row : List Int) (c : Nat) (seg : List Int) (j : Nat)
    (hj : j < seg.length) (hc : c ≤ row.length) :
    (setSegment row c seg)[c + j]? = seg[j]? := by
  have h1 : (row.take c).length = c := by
    simp only [List.length_take]
    omega
  rw [setSegment, List.append_assoc,
    List.getElem?_append_right (by simp only [List.length_take]; omega), h1,
    Nat.add_sub_cancel_left, List.getElem?_append_left hj]

theorem setSegment_getElem_right (row : List Int) (c : Nat) (seg : List Int) (c2 : Nat)
    (h2 : c + seg.length ≤ c2) (hc : c ≤ row.length) :
    (setSegment row c seg)[c2]? = row[c2]? := by
  have h1 : (row.take c).length = c := by
    simp only [List.length_take]
    omega
  rw [setSegment, List.append_assoc,
    List.getElem?_append_right (by simp only [List.length_take]; omega), h1,
    List.getElem?_append_right (by omega), List.getElem?_drop]
  congr 1
  omega

theorem setColBlock_length :
    ∀ (m : List (List Int)) (c : Nat) (bs : List (List Int)),
      (setColBlock m c bs).length = m.length := by
  intro m
  induction m with
  | nil => intro c bs; cases bs <;> rfl
  | cons row rest ih =>
    intro c bs
    cases bs with
    | nil => rfl
    | cons b bs => simp [setColBlock, ih]

theorem setColBlock_getElem :
    ∀ (m : List (List Int)) (c : Nat) (bs : List (List Int)) (r : Nat),
      (setColBlock m c bs)[r]? =
        (m[r]?).map (fun row =>
          match bs[r]? with
          | some b => setSegment row c b
          | none => row) := by
  intro m
  induction m with
  | nil =>
    intro c bs r
    cases bs <;> simp [setColBlock]
  | cons row rest ih =>
    intro c bs r
    cases bs with
    | nil =>
      show (row :: rest)[r]? = _
      rw [List.getElem?_nil]
      cases hr : (row :: rest)[r]? <;> simp
    | cons b bs =>
      cases r with
      | zero =>
        show (setSegment row c b :: setColBlock rest c bs)[0]? = _
        rw [List.getElem?_cons_zero, List.getElem?_cons_zero, List.getElem?_cons_zero]
        rfl
      | succ r =>
        show (setSegment row c b :: setColBlock rest c bs)[r + 1]? = _
        rw [List.getElem?_cons_succ, List.getElem?_cons_succ, List.getElem?_cons_succ]
        exact ih c bs r

theorem scatterRows_fold_getElem :
    ∀ (ps : List (Nat × List Int)) (M : List (List Int)) (c : Nat),
      (ps.map Prod.fst).Nodup →
      ∀ r : Nat,
        (ps.foldl (fun acc p => modifyAt acc p.1 (fun row => setSegment row c p.2)) M)[r]? =
          match ps.find? (fun p => p.1 == r) with
          | some p => (M[r]?).map (fun row => setSegment row c p.2)
          | none => M[r]? := by
  intro ps
  induction ps with
  | nil =>
    intro M c _ r
    simp
  | cons q rest ih =>
    intro M c hnd r
    have hnd2 : (rest.map Prod.fst).Nodup := (List.nodup_cons.mp hnd).2
    have hq : q.1 ∉ rest.map Prod.fst := (List.nodup_cons.mp hnd).1
    rw [List.foldl_cons, List.find?_cons]
    by_cases hqr : q.1 = r
    · have hbeq : (q.1 == r) = true := by simp [hqr]
      rw [hbeq]
      have hnone : rest.find? (fun p => p.1 == r) = none := by
        apply List.find?_eq_none.mpr
        intro p hp
        have : p.1 ≠ r := by
          intro hpr
          exact hq (by
            rw [← hqr] at hpr
            exact hpr ▸ List.mem_map_of_mem Prod.fst hp)
        simp [this]
      rw [ih (modifyAt M q.1 (fun row => setSegment row c q.2)) c hnd2 r, hnone]
      rw [hqr, modifyAt_getElem_self]
    · have hbeq : (q.1 == r) = false := by simp [hqr]
      rw [hbeq]
      rw [ih (modifyAt M q.1 (fun row => setSegment row c q.2)) c hnd2 r]
      rw [modifyAt_getElem_ne M q.1 r _ hqr]

theorem map_fst_zip_take {α β : Type} :
    ∀ (l : List α) (l2 : List β), (l.zip l2).map Prod.fst = l.take l2.length := by
  intro l
  induction l with
  | nil => intro l2; simp
  | cons x xs ih =>
    intro l2
    cases l2 with
    | nil => simp
    | cons y ys => simp [ih]

theorem selectMask_sublist {α : Type} :
    ∀ (l : List α) (bs : List Bool), (selectMask l bs).Sublist l := by
  intro l
  induction l with
  | nil => intro bs; cases bs <;> simp [selectMask]
  | cons x xs ih =>
    intro bs
    cases bs with
    | nil => simp [selectMask]
    | cons b bs =>
      cases b with
      | true =>
        show (x :: selectMask xs bs).Sublist (x :: xs)
        exact (ih bs).cons₂ x
      | false =>
        show (selectMask xs bs).Sublist (x :: xs)
        exact (ih bs).cons x

theorem selectMask_length_le {α : Type} (l : List α) (bs : List Bool) :
    (selectMask l bs).length ≤ l.length :=
  (selectMask_sublist l bs).length_le

theorem selectMask_replicate_true {α : Type} :
    ∀ (l : List α), selectMask l (List.replicate l.length true) = l := by
  intro l
  induction l with
  | nil => rfl
  | cons x xs ih =>
    show selectMask (x :: xs) (true :: List.replicate xs.length true) = x :: xs
    simp [selectMask, ih]

theorem countP_eq_one_unique {α : Type} (l : List α) (p : α → Bool) (h : l.countP p = 1) :
    ∀ a ∈ l, p a = true → ∀ b ∈ l, p b = true → a = b := by
  intro a ha hpa b hb hpb
  have hf : (l.filter p).length = 1 := by
    rw [← List.countP_eq_length_filter]
    exact h
  obtain ⟨x, hx⟩ := List.length_eq_one.mp hf
  have h1 : a ∈ l.filter p := List.mem_filter.mpr ⟨ha, hpa⟩
  have h2 : b ∈ l.filter p := List.mem_filter.mpr ⟨hb, hpb⟩
  rw [hx] at h1 h2
  simp at h1 h2
  rw [h1, h2]

theorem two_le_countP_of_getElem {α : Type} :
    ∀ (l : List α) (a b : Nat) (p : α → Bool) (x y : α),
      a < b → l[a]? = some x → l[b]? = some y → p x = true → p y = true →
      2 ≤ l.countP p := by
  intro l
  induction l with
  | nil =>
    intro a b p x y _ ha _ _ _
    rw [List.getElem?_nil] at ha
    cases ha
  | cons z zs ih =>
    intro a b p x y hab ha hb hpx hpy
    cases a with
    | zero =>
      rw [List.getElem?_cons_zero] at ha
      injection ha with ha
      subst ha
      cases b with
      | zero => omega
      | succ b =>
        rw [List.getElem?_cons_succ] at hb
        have hymem : y ∈ zs := List.getElem?_mem hb
        have hpos : 0 < zs.countP p := List.countP_pos_iff.mpr ⟨y, hymem, hpy⟩
        rw [List.countP_cons, hpx, if_pos rfl]
        omega
    | succ a =>
      cases b with
      | zero => omega
      | succ b =>
        rw [List.getElem?_cons_succ] at ha hb
        have h2 := ih a b p x y (by omega) ha hb hpx hpy
        rw [List.countP_cons]
        omega

theorem find?_fst_none {β : Type} (l : List (Nat × β)) (r : Nat)
    (h : ∀ p ∈ l, p.1 ≠ r) : l.find? (fun p => p.1 == r) = none := by
  apply List.find?_eq_none.mpr
  intro p hp
  simp [h p hp]

theorem find?_fst_eq {β : Type} :
    ∀ (l : List (Nat × β)) (k : Nat) (x : Nat × β),
      (l.map Prod.fst).Nodup → l[k]? = some x →
      l.find? (fun p => p.1 == x.1) = some x := by
  intro l
  induction l with
  | nil =>
    intro k x _ hk
    rw [List.getElem?_nil] at hk
    cases hk
  | cons q rest ih =>
    intro k x hnd hk
    have hq : q.1 ∉ rest.map Prod.fst := (List.nodup_cons.mp hnd).1
    cases k with
    | zero =>
      rw [List.getElem?_cons_zero] at hk
      injection hk with hk
      subst hk
      rw [List.find?_cons]
      simp
    | succ k =>
      rw [List.getElem?_cons_succ] at hk
      have hxmem : x ∈ rest := List.getElem?_mem hk
      have hne : (q.1 == x.1) = false := by
        have : q.1 ≠ x.1 := by
          intro he
          exact hq (he ▸ List.mem_map_of_mem Prod.fst hxmem)
        simp [this]
      rw [List.find?_cons, hne]
      exact ih k x (List.nodup_cons.mp hnd).2 hk

instance : IsAntisymm Nat (· < ·) :=
  ⟨fun a b h1 h2 => absurd h1 (Nat.lt_asymm h2)⟩

instance : IsTotal CRow crowLe :=
  ⟨fun a b => Nat.le_total a.position b.position⟩

instance : IsTrans CRow crowLe :=
  ⟨fun _ _ _ h1 h2 => Nat.le_trans h1 h2⟩

theorem sorted_lt_of_sorted_le_nodup (l : List Nat) (hs : l.Sorted (· ≤ ·)) (hn : l.Nodup) :
    l.Sorted (· < ·) :=
  (List.Pairwise.and hs hn).imp (fun h => lt_of_le_of_ne h.1 h.2)

theorem list_eq_of_sorted_lt_of_mem_iff (l1 l2 : List Nat)
    (h1 : l1.Sorted (· < ·)) (h2 : l2.Sorted (· < ·))
    (hmem : ∀ p, p ∈ l1 ↔ p ∈ l2) : l1 = l2 :=
  List.eq_of_perm_of_sorted ((List.perm_ext_iff_of_nodup h1.nodup h2.nodup).mpr hmem) h1 h2

/-- For position-sorted inputs, the sites a file contributes at the merged
positions carry exactly the merged positions, in order. -/
theorem selectSites_positions (sd : SampleData) (mp : List Nat)
    (hsd : (sitePositions sd).Sorted (· < ·)) (hmp : mp.Sorted (· < ·))
    (hsub : ∀ p ∈ mp, p ∈ sitePositions sd) :
    (selectSites sd mp).map Site.position = mp := by
  apply list_eq_of_sorted_lt_of_mem_iff
  · exact hsd.sublist (List.Sublist.map Site.position (List.filter_sublist sd.sites))
  · exact hmp
  · intro p
    constructor
    · intro hp
      obtain ⟨s, hsf, rfl⟩ := List.mem_map.mp hp
      obtain ⟨_, hpm⟩ := List.mem_filter.mp hsf
      simpa using hpm
    · intro hp
      obtain ⟨s, hs, rfl⟩ := List.mem_map.mp (hsub p hp)
      exact List.mem_map.mpr ⟨s, List.mem_filter.mpr ⟨hs, by simpa using hp⟩, rfl⟩

theorem selectSites_length (sd : SampleData) (mp : List Nat)
    (hsd : (sitePositions sd).Sorted (· < ·)) (hmp : mp.Sorted (· < ·))
    (hsub : ∀ p ∈ mp, p ∈ sitePositions sd) :
    (selectSites sd mp).length = mp.length := by
  have h := selectSites_positions sd mp hsd hmp hsub
  calc (selectSites sd mp).length = ((selectSites sd mp).map Site.position).length := by
        rw [List.length_map]
    _ = mp.length := by rw [h]

theorem selectSites_getElem (sd : SampleData) (mp : List Nat)
    (hsd : (sitePositions sd).Sorted (· < ·)) (hmp : mp.Sorted (· < ·))
    (hsub : ∀ p ∈ mp, p ∈ sitePositions sd) (k : Nat) (s : Site)
    (hk : (selectSites sd mp)[k]? = some s) :
    s ∈ sd.sites ∧ mp[k]? = some s.position := by
  refine ⟨(List.mem_filter.mp (List.getElem?_mem hk)).1, ?_⟩
  have h2 : ((selectSites sd mp).map Site.position)[k]? = some s.position := by
    rw [List.getElem?_map, hk]
    rfl
  rw [selectSites_positions sd mp hsd hmp hsub] at h2
  exact h2

/-- Membership in the intersection fold of run_merge_sampledata. -/
theorem foldl_inter_mem :
    ∀ (rest : List SampleData) (acc : Finset Nat) (p : Nat),
      (p ∈ rest.foldl (fun a sd => a ∩ sitePosFinset sd) acc ↔
        (p ∈ acc ∧ ∀ sd ∈ rest, p ∈ sitePosFinset sd)) := by
  intro rest
  induction rest with
  | nil => intro acc p; simp
  | cons f fs ih =>
    intro acc p
    rw [List.foldl_cons, ih]
    simp only [Finset.mem_inter, List.mem_cons]
    constructor
    · rintro ⟨⟨h1, h2⟩, h3⟩
      exact ⟨h1, by rintro sd (rfl | hsd); exact h2; exact h3 sd hsd⟩
    · rintro ⟨h1, h2⟩
      exact ⟨⟨h1, h2 f (Or.inl rfl)⟩, fun sd hsd => h2 sd (Or.inr hsd)⟩

/-- Membership in a union fold. -/
theorem foldl_union_mem {β : Type} [DecidableEq β] (g : SampleData → Finset β) :
    ∀ (fs : List SampleData) (acc : Finset β) (x : β),
      (x ∈ fs.foldl (fun a sd => a ∪ g sd) acc ↔ (x ∈ acc ∨ ∃ sd ∈ fs, x ∈ g sd)) := by
  intro fs
  induction fs with
  | nil => intro acc x; simp
  | cons f fs ih =>
    intro acc x
    rw [List.foldl_cons, ih]
    simp only [Finset.mem_union, List.mem_cons]
    constructor
    · rintro (⟨h1 | h1⟩ | ⟨sd, hsd, h2⟩)
      · exact Or.inl h1
      · exact Or.inr ⟨f, Or.inl rfl, h1⟩
      · exact Or.inr ⟨sd, Or.inr hsd, h2⟩
    · rintro (h1 | ⟨sd, (rfl | hsd), h2⟩)
      · exact Or.inl (Or.inl h1)
      · exact Or.inl (Or.inr h2)
      · exact Or.inr ⟨sd, hsd, h2⟩

theorem mergedPositions0_sorted_le (f0 : SampleData) (rest : List SampleData) :
    (mergedPositions0 (f0 :: rest)).Sorted (· ≤ ·) := by
  unfold mergedPositions0
  exact List.sorted_insertionSort (· ≤ ·) _

theorem mergedPositions0_nodup (f0 : SampleData) (rest : List SampleData) :
    (mergedPositions0 (f0 :: rest)).Nodup := by
  unfold mergedPositions0
  rw [List.Perm.nodup_iff (List.perm_insertionSort _ _)]
  exact (List.nodup_dedup _).filter _

theorem mergedPositions0_sorted_lt (f0 : SampleData) (rest : List SampleData) :
    (mergedPositions0 (f0 :: rest)).Sorted (· < ·) :=
  sorted_lt_of_sorted_le_nodup _ (mergedPositions0_sorted_le f0 rest)
    (mergedPositions0_nodup f0 rest)

theorem mergedPositions0_mem (f0 : SampleData) (rest : List SampleData) (p : Nat) :
    p ∈ mergedPositions0 (f0 :: rest) ↔
      (p ∈ sitePositions f0 ∧ ∀ sd ∈ rest, p ∈ sitePositions sd) := by
  unfold mergedPositions0
  rw [List.Perm.mem_iff (List.perm_insertionSort _ _)]
  simp [List.mem_filter, List.mem_dedup, List.all_eq_true]

theorem mergedPositions0_length (f0 : SampleData) (rest : List SampleData) :
    (mergedPositions0 (f0 :: rest)).length = sitePosIntersectionCard (f0 :: rest) := by
  show _ = (rest.foldl (fun acc sd => acc ∩ sitePosFinset sd) (sitePosFinset f0)).card
  have hnd := mergedPositions0_nodup f0 rest
  have h1 : (mergedPositions0 (f0 :: rest)).toFinset =
      rest.foldl (fun acc sd => acc ∩ sitePosFinset sd) (sitePosFinset f0) := by
    apply Finset.ext
    intro p
    rw [List.mem_toFinset, mergedPositions0_mem, foldl_inter_mem]
    simp only [sitePosFinset, List.mem_toFinset]
  rw [← h1, List.card_toFinset, hnd.dedup]

theorem addSiteRow_ok (acc : List OutSite) (s : OutSite) (out : List OutSite)
    (h : addSiteRow acc s = .ok out) : out = acc ++ [s] := by
  unfold addSiteRow at h
  split at h
  · split at h
    · injection h with h
      exact h.symm
    · cases h
  · injection h with h
    exact h.symm

theorem addAllSites_fold_ok :
    ∀ (rows acc out : List OutSite),
      rows.foldlM addSiteRow acc = .ok out → out = acc ++ rows := by
  intro rows
  induction rows with
  | nil =>
    intro acc out h
    simp only [List.foldlM_nil] at h
    injection h with h
    simp [h.symm]
  | cons r rs ih =>
    intro acc out h
    rw [List.foldlM_cons] at h
    cases ha : addSiteRow acc r with
    | error e =>
      rw [ha] at h
      cases h
    | ok acc2 =>
      rw [ha] at h
      have h2 : rs.foldlM addSiteRow acc2 = .ok out := h
      have h3 := ih acc2 out h2
      rw [h3, addSiteRow_ok acc r acc2 ha, List.append_assoc]
      rfl

theorem addAllSites_ok (rows out : List OutSite) (h : addAllSites rows = .ok out) :
    out = rows := by
  have h2 := addAllSites_fold_ok rows [] out h
  simpa using h2

theorem mergeGenos_fold_length :
    ∀ (fs : List SampleData) (mp : List Nat) (m : List (List Int)) (c : Nat),
      ((fs.foldl (fun acc sd =>
        (setColBlock acc.1 acc.2 ((selectSites sd mp).map Site.genotypes),
         acc.2 + sd.num_samples)) (m, c)).1).length = m.length := by
  intro fs
  induction fs with
  | nil => intro mp m c; rfl
  | cons sd fs ih =>
    intro mp m c
    rw [List.foldl_cons]
    exact (ih mp _ _).trans (setColBlock_length m c _)

theorem mergeGenos_length (files : List SampleData) (mp : List Nat) :
    (mergeGenos files mp).length = mp.length := by
  unfold mergeGenos
  rw [mergeGenos_fold_length]
  exact List.length_replicate _ _

theorem mergeRows_length (mp : List Nat) (genos : List (List Int)) (anc deriv : List String) :
    (mergeRows mp genos anc deriv).length =
      min (min mp.length genos.length) (min anc.length deriv.length) := by
  simp [mergeRows, List.length_zip]

theorem zipWith_if_self :
    ∀ (l : List String),
      List.zipWith (fun d c => if d = "" ∨ c = "" then c else d) l l = l := by
  intro l
  induction l with
  | nil => rfl
  | cons x xs ih =>
    show (if x = "" ∨ x = "" then x else x) :: List.zipWith _ xs xs = x :: xs
    rw [ih]
    congr 1
    split <;> rfl

theorem zipWith_decide_self :
    ∀ (l : List String),
      List.zipWith (fun d c => decide (d = c)) l l = List.replicate l.length true := by
  intro l
  induction l with
  | nil => rfl
  | cons x xs ih =>
    show decide (x = x) :: List.zipWith _ xs xs = _
    rw [ih]
    simp [List.replicate_succ]

theorem zipWith_and_replicate_true :
    ∀ n : Nat, List.zipWith (· && ·) (List.replicate n true) (List.replicate n true) =
      List.replicate n true := by
  intro n
  induction n with
  | zero => rfl
  | succ n ih => simp [List.replicate_succ, ih]

theorem mergeAlleleLoop_lengths :
    ∀ (fs : List SampleData) (ancA : List String) (mp : List Nat) (st st2 : AlleleState),
      mergeAlleleLoop ancA mp fs st = .ok st2 →
      (∀ sd ∈ fs, (derivListOf sd mp).length = mp.length) →
      st.deriv.length = mp.length → st.biallelic.length = mp.length →
      st2.deriv.length = mp.length ∧ st2.biallelic.length = mp.length := by
  intro fs
  induction fs with
  | nil =>
    intro ancA mp st st2 h _ h1 h2
    injection h with h
    rw [← h]
    exact ⟨h1, h2⟩
  | cons sd fs ih =>
    intro ancA mp st st2 h hlen h1 h2
    unfold mergeAlleleLoop at h
    by_cases ha : ancA = ancListOf sd mp
    · rw [if_pos ha] at h
      have hc : (derivListOf sd mp).length = mp.length := hlen sd (List.mem_cons_self sd fs)
      refine ih ancA mp _ st2 h (fun t ht => hlen t (List.mem_cons_of_mem sd ht)) ?_ ?_
      · show (List.zipWith _ st.deriv (derivListOf sd mp)).length = mp.length
        simp only [List.length_zipWith, h1, hc]
        omega
      · show (List.zipWith _ st.biallelic _).length = mp.length
        simp only [List.length_zipWith, h1, h2, hc]
        omega
    · rw [if_neg ha] at h
      cases h

theorem mergeAlleleLoop_agree :
    ∀ (fs : List SampleData) (ancA : List String) (mp : List Nat) (d0 : List String),
      d0.length = mp.length →
      (∀ sd ∈ fs, derivListOf sd mp = d0) →
      ∀ st2 : AlleleState,
        mergeAlleleLoop ancA mp fs ⟨d0, List.replicate mp.length true⟩ = .ok st2 →
        st2 = ⟨d0, List.replicate mp.length true⟩ := by
  intro fs
  induction fs with
  | nil =>
    intro ancA mp d0 _ _ st2 h
    injection h with h
    exact h.symm
  | cons sd fs ih =>
    intro ancA mp d0 hd0 hall st2 h
    unfold mergeAlleleLoop at h
    by_cases ha : ancA = ancListOf sd mp
    · rw [if_pos ha] at h
      have hc : derivListOf sd mp = d0 := hall sd (List.mem_cons_self sd fs)
      rw [hc] at h
      have h2 : mergeAlleleLoop ancA mp fs
          ⟨List.zipWith (fun d c => if d = "" ∨ c = "" then c else d) d0 d0,
           List.zipWith (fun b e => b && e) (List.replicate mp.length true)
             (List.zipWith (fun d c => decide (d = c))
               (List.zipWith (fun d c => if d = "" ∨ c = "" then c else d) d0 d0) d0)⟩ =
          .ok st2 := h
      rw [zipWith_if_self d0, zipWith_decide_self d0, hd0,
        zipWith_and_replicate_true mp.length] at h2
      exact ih ancA mp d0 hd0 (fun t ht => hall t (List.mem_cons_of_mem sd ht)) st2 h2
    · rw [if_neg ha] at h
      cases h

/-- Under derived-allele agreement at shared positions, every file
contributes the same derived-allele column over the merged positions. -/
theorem derivListOf_eq_of_agree (f0 sd : SampleData) (mp : List Nat)
    (h0 : (sitePositions f0).Sorted (· < ·)) (hsd : (sitePositions sd).Sorted (· < ·))
    (hmp : mp.Sorted (· < ·)) (hsub0 : ∀ p ∈ mp, p ∈ sitePositions f0)
    (hsubsd : ∀ p ∈ mp, p ∈ sitePositions sd)
    (hagree : ∀ s ∈ f0.sites, ∀ t ∈ sd.sites, s.position = t.position →
      derivBlankOf s = derivBlankOf t) :
    derivListOf sd mp = derivListOf f0 mp := by
  apply List.ext_getElem?
  intro k
  unfold derivListOf
  rw [List.getElem?_map, List.getElem?_map]
  rcases h1 : (selectSites sd mp)[k]? with _ | s
  · have hk : (selectSites sd mp).length ≤ k := List.getElem?_eq_none_iff.mp h1
    have hk0 : (selectSites f0 mp).length ≤ k := by
      rw [selectSites_length f0 mp h0 hmp hsub0]
      rw [selectSites_length sd mp hsd hmp hsubsd] at hk
      exact hk
    rw [List.getElem?_eq_none hk0]
  · obtain ⟨hmem, hpos⟩ := selectSites_getElem sd mp hsd hmp hsubsd k s h1
    rcases h2 : (selectSites f0 mp)[k]? with _ | t
    · exfalso
      have hk : (selectSites f0 mp).length ≤ k := List.getElem?_eq_none_iff.mp h2
      rw [selectSites_length f0 mp h0 hmp hsub0] at hk
      have hk2 : k < (selectSites sd mp).length := (List.getElem?_eq_some_iff.mp h1).1
      rw [selectSites_length sd mp hsd hmp hsubsd] at hk2
      omega
    · obtain ⟨hmem0, hpos0⟩ := selectSites_getElem f0 mp h0 hmp hsub0 k t h2
      have hpp : t.position = s.position := by
        rw [hpos] at hpos0
        injection hpos0 with h3
        exact h3.symm
      show some (derivBlankOf s) = some (derivBlankOf t)
      rw [hagree t hmem0 s hmem hpp]

/-- C2 counterexample: two files sharing the single position 5 with
conflicting derived alleles. The merge succeeds but writes zero sites,
while the intersection of the site-position sets has one element. -/
theorem c2_merge_site_count_counterexample :
    runMergeSampledata [c2FileA, c2FileB] = .ok { sequence_length := some 10, sites := [] } ∧
    sitePosIntersectionCard [c2FileA, c2FileB] = 1 :=
  ⟨rfl, rfl⟩

/-- C2 (amended): for position-sorted inputs, the number of sites in the
merged output is the number of intersection positions that survive the
derived-allele compatibility filter; it is at most the size of the
intersection of the input files' site-position sets, with equality
whenever the input files agree on derived alleles at every shared
position (the claim's unconditional equality fails, see the
counterexample). -/
theorem c2_merge_site_count (files : List SampleData)
    (hsorted : ∀ sd ∈ files, (sitePositions sd).Sorted (· < ·)) :
    ∀ out : SdOutput, runMergeSampledata files = .ok out →
      out.sites.length ≤ sitePosIntersectionCard files ∧
      ((∀ sd1 ∈ files, ∀ sd2 ∈ files, ∀ s1 ∈ sd1.sites, ∀ s2 ∈ sd2.sites,
          s1.position = s2.position → derivBlankOf s1 = derivBlankOf s2) →
        out.sites.length = sitePosIntersectionCard files) := by
  cases files with
  | nil =>
    intro out hok
    cases hok
  | cons f0 rest =>
    intro out hok
    have h0s : (sitePositions f0).Sorted (· < ·) := hsorted f0 (List.mem_cons_self f0 rest)
    have hmpS : (mergedPositions0 (f0 :: rest)).Sorted (· < ·) :=
      mergedPositions0_sorted_lt f0 rest
    have hsub : ∀ sd ∈ f0 :: rest, ∀ p ∈ mergedPositions0 (f0 :: rest), p ∈ sitePositions sd := by
      intro sd hsd p hp
      have h2 := (mergedPositions0_mem f0 rest p).mp hp
      rcases List.mem_cons.mp hsd with rfl | hsd2
      · exact h2.1
      · exact h2.2 sd hsd2
    have hlenDeriv : ∀ sd ∈ f0 :: rest,
        (derivListOf sd (mergedPositions0 (f0 :: rest))).length =
          (mergedPositions0 (f0 :: rest)).length := by
      intro sd hsd
      unfold derivListOf
      rw [List.length_map]
      exact selectSites_length sd _ (hsorted sd hsd) hmpS (hsub sd hsd)
    rw [runMergeSampledata] at hok
    split at hok
    · cases hok
    · rename_i seqLen hload
      split at hok
      · cases hok
      · rename_i st hst
        split at hok
        · cases hok
        · rename_i sites hadd
          injection hok with hok
          subst hok
          have hsites := addAllSites_ok _ _ hadd
          have hstLen : st.deriv.length = (mergedPositions0 (f0 :: rest)).length ∧
              st.biallelic.length = (mergedPositions0 (f0 :: rest)).length := by
            have hst2 : mergeAlleleLoop (ancListOf f0 (mergedPositions0 (f0 :: rest)))
                (mergedPositions0 (f0 :: rest)) rest
                ⟨derivListOf f0 (mergedPositions0 (f0 :: rest)),
                 List.replicate (mergedPositions0 (f0 :: rest)).length true⟩ = .ok st := hst
            exact mergeAlleleLoop_lengths rest _ _ _ st hst2
              (fun sd hsd => hlenDeriv sd (List.mem_cons_of_mem f0 hsd))
              (hlenDeriv f0 (List.mem_cons_self f0 rest))
              (List.length_replicate _ _)
          have hmaskLen : (selectMask (mergedPositions0 (f0 :: rest)) st.biallelic).length ≤
              (mergedPositions0 (f0 :: rest)).length :=
            selectMask_length_le _ _
          have hancLen : (ancListOf f0 (mergedPositions0 (f0 :: rest))).length =
              (mergedPositions0 (f0 :: rest)).length := by
            unfold ancListOf
            rw [List.length_map]
            exact selectSites_length f0 _ h0s hmpS (hsub f0 (List.mem_cons_self f0 rest))
          have hrowsLen : sites.length =
              (selectMask (mergedPositions0 (f0 :: rest)) st.biallelic).length := by
            rw [hsites, mergeRows_length, mergeGenos_length, hancLen, hstLen.1]
            omega
          constructor
          · show sites.length ≤ _
            rw [hrowsLen, ← mergedPositions0_length f0 rest]
            exact hmaskLen
          · intro hagree
            have hd0len : (derivListOf f0 (mergedPositions0 (f0 :: rest))).length =
                (mergedPositions0 (f0 :: rest)).length :=
              hlenDeriv f0 (List.mem_cons_self f0 rest)
            have hall : ∀ sd ∈ rest, derivListOf sd (mergedPositions0 (f0 :: rest)) =
                derivListOf f0 (mergedPositions0 (f0 :: rest)) := by
              intro sd hsd
              exact derivListOf_eq_of_agree f0 sd _ h0s
                (hsorted sd (List.mem_cons_of_mem f0 hsd)) hmpS
                (hsub f0 (List.mem_cons_self f0 rest))
                (hsub sd (List.mem_cons_of_mem f0 hsd))
                (fun s hs t ht hpp =>
                  hagree f0 (List.mem_cons_self f0 rest) sd (List.mem_cons_of_mem f0 hsd)
                    s hs t ht hpp)
            have hst2 : mergeAlleleLoop (ancListOf f0 (mergedPositions0 (f0 :: rest)))
                (mergedPositions0 (f0 :: rest)) rest
                ⟨derivListOf f0 (mergedPositions0 (f0 :: rest)),
                 List.replicate (mergedPositions0 (f0 :: rest)).length true⟩ = .ok st := hst
            have hfix := mergeAlleleLoop_agree rest _ _ _ hd0len hall st hst2
            have hbial : st.biallelic = List.replicate (mergedPositions0 (f0 :: rest)).length true := by
              rw [hfix]
            show sites.length = _
            rw [hrowsLen, hbial, selectMask_replicate_true, ← mergedPositions0_length f0 rest]

/-- Witness for the amended C2 on two identical (hence agreeing) files. -/
theorem c2_witness :
    (∀ sd ∈ [c2FileA, c2FileA], (sitePositions sd).Sorted (· < ·)) ∧
    (∀ out : SdOutput, runMergeSampledata [c2FileA, c2FileA] = .ok out →
      out.sites.length ≤ sitePosIntersectionCard [c2FileA, c2FileA] ∧
      ((∀ sd1 ∈ [c2FileA, c2FileA], ∀ sd2 ∈ [c2FileA, c2FileA], ∀ s1 ∈ sd1.sites,
          ∀ s2 ∈ sd2.sites, s1.position = s2.position → derivBlankOf s1 = derivBlankOf s2) →
        out.sites.length = sitePosIntersectionCard [c2FileA, c2FileA])) :=
  ⟨by decide, c2_merge_site_count [c2FileA, c2FileA] (by decide)⟩

/-!  Facts about the per-file site dataframes of run_combine_sampledata. -/

theorem makeSiteDf_getElem (sd : SampleData) (k : Nat) :
    (makeSiteDf sd)[k]? = (sd.sites[k]?).map
      (fun s => { id := k, position := s.position, anc := ancOf s, deriv := derivNanOf s }) := by
  unfold makeSiteDf
  rw [List.getElem?_map, List.getElem?_enum]
  cases sd.sites[k]? <;> rfl

theorem makeSiteDf_length (sd : SampleData) : (makeSiteDf sd).length = sd.sites.length := by
  unfold makeSiteDf
  rw [List.length_map, List.enum_length]

theorem makeSiteDf_mem (sd : SampleData) (d : DfRow) (hd : d ∈ makeSiteDf sd) :
    ∃ s : Site, sd.sites[d.id]? = some s ∧ d.position = s.position ∧ d.anc = ancOf s := by
  obtain ⟨k, hk⟩ := List.getElem?_of_mem hd
  rw [makeSiteDf_getElem] at hk
  rcases hs : sd.sites[k]? with _ | s
  · rw [hs] at hk
    cases hk
  · rw [hs] at hk
    injection hk with hk
    subst hk
    exact ⟨s, hs, rfl, rfl⟩

theorem makeSiteDf_map_key (sd : SampleData) :
    (makeSiteDf sd).map (fun d => (d.position, d.anc)) =
      sd.sites.map (fun s => (s.position, ancOf s)) := by
  unfold makeSiteDf
  rw [List.map_map]
  have h2 : ((fun d : DfRow => (d.position, d.anc)) ∘
      (fun js : Nat × Site =>
        ({ id := js.1, position := js.2.position, anc := ancOf js.2,
           deriv := derivNanOf js.2 } : DfRow))) =
      (fun s : Site => (s.position, ancOf s)) ∘ Prod.snd := rfl
  rw [h2, ← List.map_map, List.enum_map_snd]

theorem makeSiteDf_map_id (sd : SampleData) :
    (makeSiteDf sd).map DfRow.id = List.range sd.sites.length := by
  unfold makeSiteDf
  rw [List.map_map]
  have h2 : (DfRow.id ∘ (fun js : Nat × Site =>
      ({ id := js.1, position := js.2.position, anc := ancOf js.2,
         deriv := derivNanOf js.2 } : DfRow))) = Prod.fst := rfl
  rw [h2, List.enum_map_fst]

theorem makeSiteDf_key_nodup (sd : SampleData) (hnd : (sitePositions sd).Nodup) :
    ((makeSiteDf sd).map (fun d => (d.position, d.anc))).Nodup := by
  rw [makeSiteDf_map_key]
  have h2 : (sd.sites.map (fun s => (s.position, ancOf s))).map Prod.fst = sitePositions sd := by
    rw [List.map_map]
    rfl
  exact List.Nodup.of_map Prod.fst (h2 ▸ hnd)

theorem makeSiteDf_id_unique (sd : SampleData) (d : DfRow) (hd : d ∈ makeSiteDf sd)
    (k : Nat) (hk : d.id = k) :
    (makeSiteDf sd)[k]? = some d := by
  obtain ⟨j, hj⟩ := List.getElem?_of_mem hd
  have hjd : d.id = j := by
    rw [makeSiteDf_getElem] at hj
    rcases hs : sd.sites[j]? with _ | s
    · rw [hs] at hj
      cases hj
    · rw [hs] at hj
      injection hj with hj
      rw [← hj]
  rw [← hk, hjd]
  exact hj

theorem dfFindMatch_some (df : List DfRow) (p : Nat) (a : String) (d : DfRow)
    (h : dfFindMatch df p a = some d) :
    d ∈ df ∧ d.position = p ∧ d.anc = a := by
  refine ⟨List.mem_of_find?_eq_some h, ?_⟩
  have h2 := List.find?_some h
  simpa using h2

theorem dfFindMatch_none (df : List DfRow) (p : Nat) (a : String)
    (h : dfFindMatch df p a = none) :
    ∀ d ∈ df, ¬ (d.position = p ∧ d.anc = a) := by
  intro d hd
  have h2 := List.find?_eq_none.mp h d hd
  simpa using h2

theorem dfFindMatch_eq_of_key :
    ∀ (df : List DfRow), ((df.map (fun d => (d.position, d.anc))).Nodup) →
      ∀ d ∈ df, dfFindMatch df d.position d.anc = some d := by
  intro df
  induction df with
  | nil =>
    intro _ d hd
    cases hd
  | cons q rest ih =>
    intro hnd d hd
    rw [List.map_cons] at hnd
    have hq := (List.nodup_cons.mp hnd).1
    have hrest := (List.nodup_cons.mp hnd).2
    rcases List.mem_cons.mp hd with rfl | hd2
    · unfold dfFindMatch
      rw [List.find?_cons]
      simp
    · have hne : ¬ (q.position = d.position ∧ q.anc = d.anc) := by
        intro hc
        exact hq (by
          refine List.mem_map.mpr ⟨d, hd2, ?_⟩
          rw [hc.1, hc.2])
      unfold dfFindMatch
      rw [List.find?_cons]
      have hb : (decide (q.position = d.position ∧ q.anc = d.anc)) = false := by
        simpa using hne
      rw [hb]
      exact ih hrest d hd2

theorem crowHasKey_iff (acc : List CRow) (p : Nat) (a : String) :
    crowHasKey acc p a = true ↔ (p, a) ∈ acc.map crowKey := by
  unfold crowHasKey
  rw [List.any_eq_true]
  constructor
  · rintro ⟨r, hr, hpr⟩
    have h2 : r.position = p ∧ r.anc = a := by simpa using hpr
    refine List.mem_map.mpr ⟨r, hr, ?_⟩
    unfold crowKey
    rw [h2.1, h2.2]
  · intro h
    obtain ⟨r, hr, hk⟩ := List.mem_map.mp h
    refine ⟨r, hr, ?_⟩
    unfold crowKey at hk
    injection hk with h1 h2
    simp [h1, h2]

theorem countP_key_eq {α β : Type} [DecidableEq β] :
    ∀ (l : List α) (key : α → β), ((l.map key).Nodup) → ∀ v : β,
      l.countP (fun x => decide (key x = v)) = if v ∈ l.map key then 1 else 0 := by
  intro l
  induction l with
  | nil =>
    intro key _ v
    simp
  | cons x xs ih =>
    intro key hnd v
    have hx : key x ∉ xs.map key := (List.nodup_cons.mp (by simpa using hnd)).1
    rw [List.countP_cons, ih key (List.nodup_cons.mp (by simpa using hnd)).2 v]
    by_cases hv : v = key x
    · subst hv
      rw [if_neg (by simpa using hx), if_pos (by simp)]
      simp
    · have h2 : (decide (key x = v)) = false := by
        simp
        intro h3
        exact hv h3.symm
      rw [h2]
      by_cases hm : v ∈ xs.map key
      · have hin : v ∈ (x :: xs).map key := by
          rw [List.map_cons]
          exact List.mem_cons_of_mem _ hm
        rw [if_pos hm, if_pos hin]
        simp
      · have hnotin : v ∉ (x :: xs).map key := by
          rw [List.map_cons]
          intro hc
          rcases List.mem_cons.mp hc with h3 | h3
          · exact hv h3
          · exact hm h3
        rw [if_neg hm, if_neg hnotin]
        simp

theorem mergeStepRow_position (df : List DfRow) (r : CRow) :
    (mergeStepRow df r).position = r.position := by
  unfold mergeStepRow
  split <;> rfl

theorem mergeStepRow_anc (df : List DfRow) (r : CRow) :
    (mergeStepRow df r).anc = r.anc := by
  unfold mergeStepRow
  split <;> rfl

theorem mergeStepRow_ids (df : List DfRow) (r : CRow) :
    (mergeStepRow df r).ids =
      r.ids ++ [(dfFindMatch df r.position r.anc).map DfRow.id] := by
  rcases h : dfFindMatch df r.position r.anc with _ | d
  · unfold mergeStepRow
    rw [h]
    rfl
  · unfold mergeStepRow
    rw [h]
    rfl

theorem dfInv_mergeStep (acc : List CRow) (processed : List SampleData) (sd : SampleData)
    (hinv : dfInv acc processed) (hnd : (sitePositions sd).Nodup) :
    dfInv (mergeStep processed.length acc (makeSiteDf sd)) (processed ++ [sd]) := by
  obtain ⟨hLen, hFiles, hKeysNd, hKeysFin⟩ := hinv
  have hdfKeyNd := makeSiteDf_key_nodup sd hnd
  have hmk : (acc.map (mergeStepRow (makeSiteDf sd))).map crowKey = acc.map crowKey := by
    rw [List.map_map]
    apply List.map_congr_left
    intro r _
    show crowKey (mergeStepRow (makeSiteDf sd) r) = crowKey r
    unfold crowKey
    rw [mergeStepRow_position, mergeStepRow_anc]
  have hnk : (((makeSiteDf sd).filter (fun d => ! crowHasKey acc d.position d.anc)).map
        (mergeStepNewRow processed.length)).map crowKey =
      ((makeSiteDf sd).filter (fun d => ! crowHasKey acc d.position d.anc)).map
        (fun d => (d.position, d.anc)) := by
    rw [List.map_map]
    rfl
  have hFilIdsNd : (((makeSiteDf sd).filter
        (fun d => ! crowHasKey acc d.position d.anc)).map DfRow.id).Nodup := by
    have h2 : ((makeSiteDf sd).map DfRow.id).Nodup := by
      rw [makeSiteDf_map_id]
      exact List.nodup_range _
    exact h2.sublist (List.Sublist.map DfRow.id (List.filter_sublist _))
  refine ⟨?_, ?_, ?_, ?_⟩
  · -- each row has one id slot per processed file
    intro r hr
    have hlen2 : (processed ++ [sd]).length = processed.length + 1 := by
      rw [List.length_append]
      rfl
    rw [hlen2]
    rcases List.mem_append.mp hr with hr1 | hr2
    · obtain ⟨r0, hr0, rfl⟩ := List.mem_map.mp hr1
      rw [mergeStepRow_ids, List.length_append, hLen r0 hr0]
      rfl
    · obtain ⟨d, _, rfl⟩ := List.mem_map.mp hr2
      show (List.replicate processed.length (none : Option Nat) ++ [some d.id]).length = _
      rw [List.length_append, List.length_replicate]
      rfl
  · -- per-file correspondence and counts
    intro i t ht
    by_cases hi : i < processed.length
    · rw [List.getElem?_append_left hi] at ht
      refine ⟨?_, ?_⟩
      · intro r hr k hk
        rcases List.mem_append.mp hr with hr1 | hr2
        · obtain ⟨r0, hr0, rfl⟩ := List.mem_map.mp hr1
          rw [mergeStepRow_ids,
            optGetD_append_left r0.ids _ i (by rw [hLen r0 hr0]; exact hi)] at hk
          obtain ⟨s, hs, hp, ha⟩ := (hFiles i t ht).1 r0 hr0 k hk
          exact ⟨s, hs, by rw [mergeStepRow_position]; exact hp,
            by rw [mergeStepRow_anc]; exact ha⟩
        · obtain ⟨d, hd, rfl⟩ := List.mem_map.mp hr2
          exfalso
          have h3 : (mergeStepNewRow processed.length d).ids.getD i none = none := by
            show (List.replicate processed.length (none : Option Nat) ++ [some d.id]).getD i none
              = none
            exact optGetD_replicate_append processed.length i (some d.id) hi
          rw [h3] at hk
          cases hk
      · intro k hkt
        rw [mergeStep, List.countP_append]
        have h1 : (acc.map (mergeStepRow (makeSiteDf sd))).countP
            (fun r => decide (r.ids.getD i none = some k)) =
            acc.countP (fun r => decide (r.ids.getD i none = some k)) := by
          rw [List.countP_map]
          apply List.countP_congr
          intro r0 hr0
          show decide ((mergeStepRow (makeSiteDf sd) r0).ids.getD i none = some k) = true ↔
            decide (r0.ids.getD i none = some k) = true
          rw [mergeStepRow_ids,
            optGetD_append_left r0.ids _ i (by rw [hLen r0 hr0]; exact hi)]
        have h2 : (((makeSiteDf sd).filter (fun d => ! crowHasKey acc d.position d.anc)).map
              (mergeStepNewRow processed.length)).countP
            (fun r => decide (r.ids.getD i none = some k)) = 0 := by
          apply List.countP_eq_zero.mpr
          intro r hr
          obtain ⟨d, _, rfl⟩ := List.mem_map.mp hr
          have h3 : (mergeStepNewRow processed.length d).ids.getD i none = none := by
            show (List.replicate processed.length (none : Option Nat) ++ [some d.id]).getD i none
              = none
            exact optGetD_replicate_append processed.length i (some d.id) hi
          intro hcon
          rw [decide_eq_true_eq, h3] at hcon
          cases hcon
        rw [h1, h2, (hFiles i t ht).2 k hkt]
    · have hi2 : i = processed.length := by
        have hlt : i < (processed ++ [sd]).length := (List.getElem?_eq_some_iff.mp ht).1
        rw [List.length_append] at hlt
        have : [sd].length = 1 := rfl
        omega
      subst hi2
      have ht2 : sd = t := by
        rw [List.getElem?_append_right (Nat.le_refl _), Nat.sub_self,
          List.getElem?_cons_zero] at ht
        injection ht
      subst ht2
      refine ⟨?_, ?_⟩
      · intro r hr k hk
        rcases List.mem_append.mp hr with hr1 | hr2
        · obtain ⟨r0, hr0, rfl⟩ := List.mem_map.mp hr1
          rw [mergeStepRow_ids] at hk
          have hgd : (r0.ids ++
              [(dfFindMatch (makeSiteDf sd) r0.position r0.anc).map DfRow.id]).getD
                processed.length none =
              (dfFindMatch (makeSiteDf sd) r0.position r0.anc).map DfRow.id := by
            rw [← hLen r0 hr0]
            exact optGetD_append_self _ _
          rw [hgd] at hk
          rcases hfind : dfFindMatch (makeSiteDf sd) r0.position r0.anc with _ | d
          · rw [hfind] at hk
            cases hk
          · rw [hfind] at hk
            injection hk with hk
            obtain ⟨hdmem, hdp, hda⟩ := dfFindMatch_some _ _ _ d hfind
            obtain ⟨s, hs, hsp, hsa⟩ := makeSiteDf_mem sd d hdmem
            rw [hk] at hs
            refine ⟨s, hs, ?_, ?_⟩
            · rw [mergeStepRow_position, ← hdp]
              exact hsp
            · rw [mergeStepRow_anc, ← hda]
              exact hsa
        · obtain ⟨d, hd, rfl⟩ := List.mem_map.mp hr2
          have h3 : (mergeStepNewRow processed.length d).ids.getD processed.length none
              = some d.id := optGetD_replicate_append_self processed.length (some d.id)
          rw [h3] at hk
          injection hk with hk
          have hdmem : d ∈ makeSiteDf sd := List.mem_of_mem_filter hd
          obtain ⟨s, hs, hsp, hsa⟩ := makeSiteDf_mem sd d hdmem
          rw [hk] at hs
          exact ⟨s, hs, hsp, hsa⟩
      · intro k hkt
        rcases hs : sd.sites[k]? with _ | s
        · exfalso
          have := List.getElem?_eq_none_iff.mp hs
          omega
        have hdfk : (makeSiteDf sd)[k]? =
            some (DfRow.mk k s.position (ancOf s) (derivNanOf s)) := by
          rw [makeSiteDf_getElem, hs]
          rfl
        have hdfkMem : DfRow.mk k s.position (ancOf s) (derivNanOf s) ∈ makeSiteDf sd :=
          List.getElem?_mem hdfk
        rw [mergeStep, List.countP_append]
        have h1 : (acc.map (mergeStepRow (makeSiteDf sd))).countP
            (fun r => decide (r.ids.getD processed.length none = some k)) =
            acc.countP (fun r => decide (crowKey r = (s.position, ancOf s))) := by
          rw [List.countP_map]
          apply List.countP_congr
          intro r0 hr0
          show decide ((mergeStepRow (makeSiteDf sd) r0).ids.getD processed.length none
              = some k) = true ↔ decide (crowKey r0 = (s.position, ancOf s)) = true
          rw [decide_eq_true_eq, decide_eq_true_eq, mergeStepRow_ids]
          have hgd : (r0.ids ++
              [(dfFindMatch (makeSiteDf sd) r0.position r0.anc).map DfRow.id]).getD
                processed.length none =
              (dfFindMatch (makeSiteDf sd) r0.position r0.anc).map DfRow.id := by
            rw [← hLen r0 hr0]
            exact optGetD_append_self _ _
          rw [hgd]
          constructor
          · intro hmk2
            rcases hfind : dfFindMatch (makeSiteDf sd) r0.position r0.anc with _ | d
            · rw [hfind] at hmk2
              cases hmk2
            · rw [hfind] at hmk2
              injection hmk2 with hmk2
              obtain ⟨hdmem, hdp, hda⟩ := dfFindMatch_some _ _ _ d hfind
              have hdd : (makeSiteDf sd)[k]? = some d := makeSiteDf_id_unique sd d hdmem k hmk2
              rw [hdfk] at hdd
              injection hdd with hdd
              unfold crowKey
              rw [← hdp, ← hda, ← hdd]
          · intro hkey
            have hp : r0.position = s.position := congrArg Prod.fst hkey
            have ha : r0.anc = ancOf s := congrArg Prod.snd hkey
            have hfound : dfFindMatch (makeSiteDf sd) r0.position r0.anc =
                some (DfRow.mk k s.position (ancOf s) (derivNanOf s)) := by
              rw [hp, ha]
              exact dfFindMatch_eq_of_key (makeSiteDf sd) hdfKeyNd _ hdfkMem
            rw [hfound]
            rfl
        have h2 : (((makeSiteDf sd).filter (fun d => ! crowHasKey acc d.position d.anc)).map
              (mergeStepNewRow processed.length)).countP
            (fun r => decide (r.ids.getD processed.length none = some k)) =
            ((makeSiteDf sd).filter (fun d => ! crowHasKey acc d.position d.anc)).countP
              (fun d => decide (d.id = k)) := by
          rw [List.countP_map]
          apply List.countP_congr
          intro d _
          show decide ((mergeStepNewRow processed.length d).ids.getD processed.length none
              = some k) = true ↔ decide (d.id = k) = true
          rw [decide_eq_true_eq, decide_eq_true_eq]
          have h3 : (mergeStepNewRow processed.length d).ids.getD processed.length none
              = some d.id := optGetD_replicate_append_self processed.length (some d.id)
          rw [h3]
          constructor
          · intro h4
            injection h4
          · intro h4
            rw [h4]
        rw [h1, h2, countP_key_eq acc crowKey hKeysNd (s.position, ancOf s),
          countP_key_eq _ DfRow.id hFilIdsNd k]
        by_cases hmem : (s.position, ancOf s) ∈ acc.map crowKey
        · have hnotin : k ∉ ((makeSiteDf sd).filter
              (fun d => ! crowHasKey acc d.position d.anc)).map DfRow.id := by
            intro hin
            obtain ⟨d, hdfil, hdk⟩ := List.mem_map.mp hin
            have hdmem : d ∈ makeSiteDf sd := List.mem_of_mem_filter hdfil
            have hdd : (makeSiteDf sd)[k]? = some d := makeSiteDf_id_unique sd d hdmem k hdk
            rw [hdfk] at hdd
            injection hdd with hdd
            have hpred := (List.mem_filter.mp hdfil).2
            rw [← hdd] at hpred
            have hhk : crowHasKey acc s.position (ancOf s) = true :=
              (crowHasKey_iff acc s.position (ancOf s)).mpr hmem
            rw [show (DfRow.mk k s.position (ancOf s) (derivNanOf s)).position = s.position
                from rfl,
              show (DfRow.mk k s.position (ancOf s) (derivNanOf s)).anc = ancOf s
                from rfl, hhk] at hpred
            cases hpred
          rw [if_pos hmem, if_neg hnotin]
        · have hin : k ∈ ((makeSiteDf sd).filter
              (fun d => ! crowHasKey acc d.position d.anc)).map DfRow.id := by
            refine List.mem_map.mpr ⟨_, List.mem_filter.mpr ⟨hdfkMem, ?_⟩, rfl⟩
            have hhk : crowHasKey acc s.position (ancOf s) = false := by
              rcases hb : crowHasKey acc s.position (ancOf s) with _ | _
              · rfl
              · exact absurd ((crowHasKey_iff acc s.position (ancOf s)).mp hb) hmem
            rw [show (DfRow.mk k s.position (ancOf s) (derivNanOf s)).position = s.position
                from rfl,
              show (DfRow.mk k s.position (ancOf s) (derivNanOf s)).anc = ancOf s
                from rfl, hhk]
            rfl
          rw [if_neg hmem, if_pos hin]
  · -- join keys stay pairwise distinct
    show ((acc.map (mergeStepRow (makeSiteDf sd)) ++
      ((makeSiteDf sd).filter (fun d => ! crowHasKey acc d.position d.anc)).map
        (mergeStepNewRow processed.length)).map crowKey).Nodup
    rw [List.map_append, hmk, hnk]
    apply hKeysNd.append
    · exact hdfKeyNd.sublist (List.Sublist.map _ (List.filter_sublist _))
    · intro x hx hx2
      obtain ⟨d, hdfil, rfl⟩ := List.mem_map.mp hx2
      have hpred := (List.mem_filter.mp hdfil).2
      have hhk : crowHasKey acc d.position d.anc = true :=
        (crowHasKey_iff acc d.position d.anc).mpr hx
      rw [hhk] at hpred
      cases hpred
  · -- join keys cover the processed files' key sets
    show ((acc.map (mergeStepRow (makeSiteDf sd)) ++
      ((makeSiteDf sd).filter (fun d => ! crowHasKey acc d.position d.anc)).map
        (mergeStepNewRow processed.length)).map crowKey).toFinset = _
    rw [List.map_append, hmk, hnk, List.toFinset_append, hKeysFin, List.foldl_append]
    show _ = [sd].foldl (fun a t => a ∪ siteKeyFinset t)
      (processed.foldl (fun a t => a ∪ siteKeyFinset t) ∅)
    rw [List.foldl_cons, List.foldl_nil]
    apply Finset.ext
    intro x
    simp only [Finset.mem_union, List.mem_toFinset]
    constructor
    · rintro (hx | hx)
      · exact Or.inl hx
      · right
        obtain ⟨d, hdfil, rfl⟩ := List.mem_map.mp hx
        have hdmem : d ∈ makeSiteDf sd := List.mem_of_mem_filter hdfil
        have : (d.position, d.anc) ∈ (makeSiteDf sd).map (fun d => (d.position, d.anc)) :=
          List.mem_map.mpr ⟨d, hdmem, rfl⟩
        rw [makeSiteDf_map_key] at this
        exact List.mem_toFinset.mpr this
    · rintro (hx | hx)
      · exact Or.inl hx
      · have hx2 : x ∈ (makeSiteDf sd).map (fun d => (d.position, d.anc)) := by
          rw [makeSiteDf_map_key]
          exact List.mem_toFinset.mp hx
        obtain ⟨d, hdmem, rfl⟩ := List.mem_map.mp hx2
        rcases hb : crowHasKey acc d.position d.anc with _ | _
        · right
          exact List.mem_map.mpr ⟨d, List.mem_filter.mpr ⟨hdmem, by rw [hb]; rfl⟩, rfl⟩
        · left
          rw [← hKeysFin]
          exact List.mem_toFinset.mpr ((crowHasKey_iff acc d.position d.anc).mp hb)

theorem dfInv_init (sd : SampleData) (hnd : (sitePositions sd).Nodup) :
    dfInv (initCombinedDf sd) [sd] := by
  have hkeys : (initCombinedDf sd).map crowKey =
      sd.sites.map (fun s => (s.position, ancOf s)) := by
    rw [initCombinedDf, List.map_map, ← makeSiteDf_map_key]
    rfl
  refine ⟨?_, ?_, ?_, ?_⟩
  · intro r hr
    obtain ⟨d, _, rfl⟩ := List.mem_map.mp hr
    rfl
  · intro i t ht
    have hi : i = 0 := by
      have hlt : i < [sd].length := (List.getElem?_eq_some_iff.mp ht).1
      have h1 : [sd].length = 1 := rfl
      omega
    subst hi
    rw [List.getElem?_cons_zero] at ht
    injection ht with ht
    subst ht
    refine ⟨?_, ?_⟩
    · intro r hr k hk
      obtain ⟨d, hd, rfl⟩ := List.mem_map.mp hr
      have hk2 : ([some d.id] : List (Option Nat)).getD 0 none = some k := hk
      rw [List.getD_eq_getElem?_getD, List.getElem?_cons_zero] at hk2
      have hk3 : some d.id = some k := hk2
      injection hk3 with hk3
      obtain ⟨s, hs, hsp, hsa⟩ := makeSiteDf_mem sd d hd
      rw [hk3] at hs
      exact ⟨s, hs, hsp, hsa⟩
    · intro k hkt
      rw [initCombinedDf, List.countP_map]
      have h2 : (makeSiteDf sd).countP ((fun r : CRow => decide (r.ids.getD 0 none = some k)) ∘
          (fun d : DfRow => { position := d.position, anc := d.anc, deriv := d.deriv,
                              ids := [some d.id], dcols := [(none : Option String)] })) =
          (makeSiteDf sd).countP (fun d => decide (DfRow.id d = k)) := by
        apply List.countP_congr
        intro d _
        show decide (([some d.id] : List (Option Nat)).getD 0 none = some k) = true ↔
          decide (DfRow.id d = k) = true
        rw [decide_eq_true_eq, decide_eq_true_eq,
          List.getD_eq_getElem?_getD, List.getElem?_cons_zero]
        show some d.id = some k ↔ d.id = k
        constructor
        · intro h4
          injection h4
        · intro h4
          rw [h4]
      rw [h2, countP_key_eq _ DfRow.id (by
          rw [makeSiteDf_map_id]; exact List.nodup_range _) k]
      rw [if_pos (by rw [makeSiteDf_map_id]; exact List.mem_range.mpr hkt)]
  · rw [hkeys, ← makeSiteDf_map_key]
    exact makeSiteDf_key_nodup sd hnd
  · rw [hkeys, List.foldl_cons, List.foldl_nil, Finset.empty_union]
    rfl

theorem dfInv_fold (fs : List SampleData) : ∀ (j : Nat) (acc : List CRow)
    (processed : List SampleData),
    dfInv acc processed → processed.length = j + 1 →
    (∀ sd ∈ fs, (sitePositions sd).Nodup) →
    dfInv ((List.enumFrom j fs).foldl
        (fun a p => mergeStep (p.1 + 1) a (makeSiteDf p.2)) acc)
      (processed ++ fs) := by
  induction fs with
  | nil =>
    intro j acc processed hinv _ _
    rw [show List.enumFrom j ([] : List SampleData) = [] from rfl, List.foldl_nil,
      List.append_nil]
    exact hinv
  | cons sd fs ih =>
    intro j acc processed hinv hlen hnd
    rw [List.enumFrom_cons, List.foldl_cons]
    have h1 := dfInv_mergeStep acc processed sd hinv (hnd sd (List.mem_cons_self _ _))
    rw [hlen] at h1
    have h2 := ih (j + 1) (mergeStep (j + 1) acc (makeSiteDf sd)) (processed ++ [sd]) h1
      (by rw [List.length_append, hlen]; rfl)
      (fun t htm => hnd t (List.mem_cons_of_mem _ htm))
    rw [List.append_assoc] at h2
    exact h2

theorem dfInv_combinedDf (f0 : SampleData) (rest : List SampleData)
    (hnd : ∀ sd ∈ f0 :: rest, (sitePositions sd).Nodup) :
    dfInv (combinedDf (f0 :: rest)) (f0 :: rest) :=
  dfInv_fold rest 0 (initCombinedDf f0) [f0]
    (dfInv_init f0 (hnd f0 (List.mem_cons_self f0 rest))) rfl
    (fun sd h => hnd sd (List.mem_cons_of_mem f0 h))

theorem foldl_modifyAt_length :
    ∀ (ps : List (Nat × List Int)) (m : List (List Int)) (c : Nat),
      (ps.foldl (fun acc p => modifyAt acc p.1 (fun row => setSegment row c p.2)) m).length
        = m.length := by
  intro ps
  induction ps with
  | nil =>
    intro m c
    rfl
  | cons p ps ih =>
    intro m c
    rw [List.foldl_cons, ih, modifyAt_length]

theorem scatterRows_length (m : List (List Int)) (rowIdx : List Nat) (c : Nat)
    (blocks : List (List Int)) : (scatterRows m rowIdx c blocks).length = m.length :=
  foldl_modifyAt_length _ m c

theorem combineGenos_fold_length (df : List CRow) :
    ∀ (ps : List (Nat × SampleData)) (m : List (List Int)) (c : Nat),
      ((ps.foldl (fun acc p => (scatterRows acc.1 (selectedRowIndices df p.1) acc.2
          (genosUsed df p.1 p.2), acc.2 + p.2.num_samples)) (m, c)).1).length = m.length := by
  intro ps
  induction ps with
  | nil =>
    intro m c
    rfl
  | cons p ps ih =>
    intro m c
    rw [List.foldl_cons]
    have h := ih (scatterRows m (selectedRowIndices df p.1) c (genosUsed df p.1 p.2))
      (c + p.2.num_samples)
    rw [h, scatterRows_length]

theorem combineGenos_length (df : List CRow) (files : List SampleData) :
    (combineGenos df files).length = df.length := by
  unfold combineGenos
  rw [combineGenos_fold_length, List.length_replicate]

theorem combineRows_length (df : List CRow) (genos : List (List Int)) :
    (combineRows df genos).length = min df.length genos.length := by
  unfold combineRows
  rw [List.length_map, List.length_zip]

theorem sortedCombinedDf_length (files : List SampleData) :
    (sortedCombinedDf files).length = (combinedDf files).length :=
  (List.perm_insertionSort crowLe (combinedDf files)).length_eq

theorem combinedDf_length_eq_keyUnionCard (f0 : SampleData) (rest : List SampleData)
    (hnd : ∀ sd ∈ f0 :: rest, (sitePositions sd).Nodup) :
    (combinedDf (f0 :: rest)).length = siteKeyUnionCard (f0 :: rest) := by
  obtain ⟨_, _, hKeysNd, hKeysFin⟩ := dfInv_combinedDf f0 rest hnd
  have h1 : (combinedDf (f0 :: rest)).length =
      ((combinedDf (f0 :: rest)).map crowKey).length := (List.length_map _ _).symm
  rw [h1, ← List.Nodup.dedup hKeysNd, ← List.card_toFinset, hKeysFin]
  rfl

theorem keyUnion_card_eq_posUnion_card (files : List SampleData)
    (hagree : ∀ sd ∈ files, ∀ sd2 ∈ files, ∀ s ∈ sd.sites, ∀ s2 ∈ sd2.sites,
      s.position = s2.position → ancOf s = ancOf s2) :
    siteKeyUnionCard files = sitePosUnionCard files := by
  unfold siteKeyUnionCard sitePosUnionCard
  have himg : (files.foldl (fun acc sd => acc ∪ siteKeyFinset sd) ∅).image Prod.fst =
      files.foldl (fun acc sd => acc ∪ sitePosFinset sd) ∅ := by
    apply Finset.ext
    intro x
    rw [Finset.mem_image]
    constructor
    · rintro ⟨k, hk, rfl⟩
      rw [foldl_union_mem siteKeyFinset] at hk
      rcases hk with hk | ⟨sd, hsd, hk⟩
      · exact absurd hk (Finset.not_mem_empty k)
      · rw [foldl_union_mem sitePosFinset]
        right
        refine ⟨sd, hsd, ?_⟩
        unfold siteKeyFinset at hk
        obtain ⟨s, hs, hks⟩ := List.mem_map.mp (List.mem_toFinset.mp hk)
        unfold sitePosFinset sitePositions
        refine List.mem_toFinset.mpr (List.mem_map.mpr ⟨s, hs, ?_⟩)
        rw [← hks]
    · intro hx
      rw [foldl_union_mem sitePosFinset] at hx
      rcases hx with hx | ⟨sd, hsd, hx⟩
      · exact absurd hx (Finset.not_mem_empty x)
      · unfold sitePosFinset sitePositions at hx
        obtain ⟨s, hs, hsx⟩ := List.mem_map.mp (List.mem_toFinset.mp hx)
        refine ⟨(s.position, ancOf s), ?_, hsx⟩
        rw [foldl_union_mem siteKeyFinset]
        right
        exact ⟨sd, hsd, by
          unfold siteKeyFinset
          exact List.mem_toFinset.mpr (List.mem_map.mpr ⟨s, hs, rfl⟩)⟩
  have hinj : Set.InjOn Prod.fst
      ((files.foldl (fun acc sd => acc ∪ siteKeyFinset sd) ∅ : Finset (Nat × String)) :
        Set (Nat × String)) := by
    intro k1 hk1 k2 hk2 hfst
    rw [Finset.mem_coe, foldl_union_mem siteKeyFinset] at hk1 hk2
    rcases hk1 with hk1 | ⟨sd1, hsd1, hk1⟩
    · exact absurd hk1 (Finset.not_mem_empty k1)
    rcases hk2 with hk2 | ⟨sd2, hsd2, hk2⟩
    · exact absurd hk2 (Finset.not_mem_empty k2)
    unfold siteKeyFinset at hk1 hk2
    obtain ⟨s1, hs1, hks1⟩ := List.mem_map.mp (List.mem_toFinset.mp hk1)
    obtain ⟨s2, hs2, hks2⟩ := List.mem_map.mp (List.mem_toFinset.mp hk2)
    have hp : s1.position = s2.position := by
      have e1 : k1.1 = s1.position := by rw [← hks1]
      have e2 : k2.1 = s2.position := by rw [← hks2]
      rw [← e1, ← e2]
      exact hfst
    have ha := hagree sd1 hsd1 sd2 hsd2 s1 hs1 s2 hs2 hp
    rw [← hks1, ← hks2, hp, ha]
  rw [← himg, Finset.card_image_of_injOn hinj]

/-- Counterexample to the literal claim C3: two one-site input files sharing
the position 5 but with different ancestral alleles.  The outer join on
(Position, Ancestral Allele) keeps both rows, the sorted dataframe has two
rows at the same position, and `add_site` raises before any output is
written, so no output site count can equal the one-element position union. -/
theorem c3_combine_site_count_counterexample :
    runCombineSampledata [c3FileA, c3FileB] =
      .error "ValueError: site position must be greater than previous" ∧
    sitePosUnionCard [c3FileA, c3FileB] = 1 ∧
    (sortedCombinedDf [c3FileA, c3FileB]).length = 2 := by
  refine ⟨rfl, ?_, rfl⟩
  decide

/-- C3: for combine-sampledata over a non-empty list of input files (each with
pairwise-distinct site positions, tsinfer's precondition), when the run
succeeds the output site count equals the number of distinct
(position, ancestral allele) join keys across the inputs — not the size of
the position union in general; the two agree exactly when any two sites at a
common position carry the same ancestral allele. -/
theorem c3_combine_site_count (f0 : SampleData) (rest : List SampleData)
    (hnd : ∀ sd ∈ f0 :: rest, (sitePositions sd).Nodup)
    (out : SdOutput) (hok : runCombineSampledata (f0 :: rest) = .ok out) :
    out.sites.length = siteKeyUnionCard (f0 :: rest) ∧
      ((∀ sd ∈ f0 :: rest, ∀ sd2 ∈ f0 :: rest, ∀ s ∈ sd.sites, ∀ s2 ∈ sd2.sites,
          s.position = s2.position → ancOf s = ancOf s2) →
        out.sites.length = sitePosUnionCard (f0 :: rest)) := by
  rw [runCombineSampledata] at hok
  split at hok
  · cases hok
  · rename_i seqLen hload
    split at hok
    · cases hok
    · rename_i sites hadd
      injection hok with hok
      subst hok
      have hlen : sites.length = siteKeyUnionCard (f0 :: rest) := by
        have h1 := addAllSites_ok _ _ hadd
        subst h1
        rw [combineRows_length, combineGenos_length, sortedCombinedDf_length,
          combinedDf_length_eq_keyUnionCard f0 rest hnd, Nat.min_self]
      exact ⟨hlen, fun hagree =>
        hlen.trans (keyUnion_card_eq_posUnion_card (f0 :: rest) hagree)⟩

/-- Witness for C3 at a concrete input: the two-file input [c3FileA, c3FileA]
combines successfully into one output site, matching both the key union and
(ancestral alleles agreeing) the position union. -/
theorem c3_witness :
    (∀ sd ∈ [c3FileA, c3FileA], (sitePositions sd).Nodup) ∧
    runCombineSampledata [c3FileA, c3FileA] = .ok
      { sequence_length := some 10,
        sites := [{ position := 5, genotypes := [1, 1],
                    alleles := [some "A", some "G"] }] } ∧
    ([{ position := 5, genotypes := [1, 1],
        alleles := [some "A", some "G"] }] : List OutSite).length =
      siteKeyUnionCard [c3FileA, c3FileA] ∧
    ([{ position := 5, genotypes := [1, 1],
        alleles := [some "A", some "G"] }] : List OutSite).length =
      sitePosUnionCard [c3FileA, c3FileA] := by
  have h := c3_combine_site_count c3FileA [c3FileA] (by decide)
    { sequence_length := some 10,
      sites := [{ position := 5, genotypes := [1, 1],
                  alleles := [some "A", some "G"] }] } rfl
  exact ⟨by decide, rfl, h.1, h.2 (by decide)⟩

theorem setColBlock_widths (W : Nat) :
    ∀ (m : List (List Int)) (c : Nat) (bs : List (List Int)),
      (∀ row ∈ m, row.length = W) → (∀ b ∈ bs, c + b.length ≤ W) →
      ∀ row ∈ setColBlock m c bs, row.length = W := by
  intro m
  induction m with
  | nil =>
    intro c bs _ _ row hrow
    cases bs <;> cases hrow
  | cons r0 m ih =>
    intro c bs hm hb row hrow
    cases bs with
    | nil => exact hm row hrow
    | cons b bs =>
      rcases List.mem_cons.mp hrow with rfl | hrow2
      · rw [setSegment_length]
        · exact hm r0 (List.mem_cons_self _ _)
        · rw [hm r0 (List.mem_cons_self _ _)]
          exact hb b (List.mem_cons_self _ _)
      · exact ih c bs (fun x hx => hm x (List.mem_cons_of_mem _ hx))
          (fun x hx => hb x (List.mem_cons_of_mem _ hx)) row hrow2

theorem totalSamples_cons (sd : SampleData) (fs : List SampleData) :
    totalSamples (sd :: fs) = sd.num_samples + totalSamples fs := by
  unfold totalSamples
  rw [List.map_cons, List.sum_cons]

theorem sampleOffset_zero (files : List SampleData) : sampleOffset files 0 = 0 := rfl

theorem sampleOffset_cons_succ (sd : SampleData) (fs : List SampleData) (i : Nat) :
    sampleOffset (sd :: fs) (i + 1) = sd.num_samples + sampleOffset fs i := by
  unfold sampleOffset
  rw [List.take_cons, List.map_cons, List.sum_cons]
  · rw [Nat.add_sub_cancel]
  · exact Nat.succ_pos i

theorem mergeGenos_fold_entry (mp : List Nat) (W : Nat) :
    ∀ (fs : List SampleData) (m : List (List Int)) (c : Nat),
      (∀ row ∈ m, row.length = W) →
      c + totalSamples fs ≤ W →
      (∀ sd ∈ fs, (selectSites sd mp).length = m.length) →
      (∀ sd ∈ fs, ∀ s ∈ sd.sites, s.genotypes.length = sd.num_samples) →
      (∀ r c2, c2 < c →
        matrixEntry ((fs.foldl (fun acc sd =>
            (setColBlock acc.1 acc.2 ((selectSites sd mp).map Site.genotypes),
             acc.2 + sd.num_samples)) (m, c)).1) r c2 = matrixEntry m r c2) ∧
      (∀ (i : Nat) (sd : SampleData), fs[i]? = some sd → ∀ (t j : Nat),
        j < sd.num_samples →
        matrixEntry ((fs.foldl (fun acc sd =>
            (setColBlock acc.1 acc.2 ((selectSites sd mp).map Site.genotypes),
             acc.2 + sd.num_samples)) (m, c)).1) t (c + sampleOffset fs i + j) =
          (((selectSites sd mp).map Site.genotypes)[t]?).bind (fun row => row[j]?)) := by
  intro fs
  induction fs with
  | nil =>
    intro m c hm _ _ _
    refine ⟨fun r c2 _ => rfl, fun i sd hi => ?_⟩
    simp at hi
  | cons sd fs ih =>
    intro m c hm hcle hfull hwf
    have hBw : ∀ b ∈ (selectSites sd mp).map Site.genotypes, b.length = sd.num_samples := by
      intro b hb
      obtain ⟨s, hs, rfl⟩ := List.mem_map.mp hb
      exact hwf sd (List.mem_cons_self _ _) s (List.mem_filter.mp hs).1
    have hcW : c + sd.num_samples ≤ W := by
      rw [totalSamples_cons] at hcle
      omega
    have hW2 : ∀ row ∈ setColBlock m c ((selectSites sd mp).map Site.genotypes),
        row.length = W := by
      apply setColBlock_widths W m c _ hm
      intro b hb
      rw [hBw b hb]
      exact hcW
    have hle2 : (c + sd.num_samples) + totalSamples fs ≤ W := by
      rw [totalSamples_cons] at hcle
      omega
    have hBlen : ((selectSites sd mp).map Site.genotypes).length = m.length := by
      rw [List.length_map]
      exact hfull sd (List.mem_cons_self _ _)
    have hmlen : (setColBlock m c ((selectSites sd mp).map Site.genotypes)).length
        = m.length := setColBlock_length m c _
    obtain ⟨ihA, ihB⟩ := ih (setColBlock m c ((selectSites sd mp).map Site.genotypes))
      (c + sd.num_samples) hW2 hle2
      (fun t ht => by rw [hmlen]; exact hfull t (List.mem_cons_of_mem _ ht))
      (fun t ht => hwf t (List.mem_cons_of_mem _ ht))
    have hstep : ((sd :: fs).foldl (fun acc sd =>
        (setColBlock acc.1 acc.2 ((selectSites sd mp).map Site.genotypes),
         acc.2 + sd.num_samples)) (m, c)) =
        (fs.foldl (fun acc sd =>
          (setColBlock acc.1 acc.2 ((selectSites sd mp).map Site.genotypes),
           acc.2 + sd.num_samples))
          (setColBlock m c ((selectSites sd mp).map Site.genotypes),
           c + sd.num_samples)) := rfl
    have hmid : ∀ r c2, c2 < c + sd.num_samples →
        matrixEntry (setColBlock m c ((selectSites sd mp).map Site.genotypes)) r c2 =
          match m[r]? with
          | some row =>
            match ((selectSites sd mp).map Site.genotypes)[r]? with
            | some b => (setSegment row c b)[c2]?
            | none => row[c2]?
          | none => none := by
      intro r c2 _
      unfold matrixEntry
      rw [setColBlock_getElem]
      rcases hmr : m[r]? with _ | row
      · rfl
      · rcases hB : ((selectSites sd mp).map Site.genotypes)[r]? with _ | b
        · rfl
        · rfl
    constructor
    · intro r c2 hc2
      rw [hstep, ihA r c2 (by omega), hmid r c2 (by omega)]
      unfold matrixEntry
      rcases hmr : m[r]? with _ | row
      · rfl
      · rcases hB : ((selectSites sd mp).map Site.genotypes)[r]? with _ | b
        · rfl
        · apply setSegment_getElem_left row c b c2 hc2
          rw [hm row (List.getElem?_mem hmr)]
          omega
    · intro i sd2 hi t j hj
      cases i with
      | zero =>
        rw [List.getElem?_cons_zero] at hi
        injection hi with hi
        subst hi
        rw [hstep, sampleOffset_zero, Nat.add_zero,
          ihA t (c + j) (by omega), hmid t (c + j) (by omega)]
        rcases hmr : m[t]? with _ | row
        · have hnone : ((selectSites sd mp).map Site.genotypes)[t]? = none := by
            apply List.getElem?_eq_none_iff.mpr
            rw [hBlen]
            exact List.getElem?_eq_none_iff.mp hmr
          rw [hnone]
          rfl
        · rcases hB : ((selectSites sd mp).map Site.genotypes)[t]? with _ | b
          · have h1 := (List.getElem?_eq_some_iff.mp hmr).1
            have h2 := List.getElem?_eq_none_iff.mp hB
            rw [hBlen] at h2
            omega
          · show (setSegment row c b)[c + j]? = (some b).bind (fun row => row[j]?)
            rw [setSegment_getElem_mid row c b j
              (by rw [hBw b (List.getElem?_mem hB)]; exact hj)
              (by rw [hm row (List.getElem?_mem hmr)]; omega)]
            rfl
      | succ i =>
        rw [List.getElem?_cons_succ] at hi
        rw [hstep, sampleOffset_cons_succ, ← Nat.add_assoc c sd.num_samples (sampleOffset fs i)]
        exact ihB i sd2 hi t j hj

theorem mergeGenos_entry (files : List SampleData) (mp : List Nat)
    (hsorted : ∀ sd ∈ files, (sitePositions sd).Sorted (· < ·))
    (hmp : mp.Sorted (· < ·))
    (hsub : ∀ sd ∈ files, ∀ p ∈ mp, p ∈ sitePositions sd)
    (hwf : ∀ sd ∈ files, ∀ s ∈ sd.sites, s.genotypes.length = sd.num_samples)
    (i : Nat) (sd : SampleData) (hi : files[i]? = some sd) (t j : Nat)
    (hj : j < sd.num_samples) :
    matrixEntry (mergeGenos files mp) t (sampleOffset files i + j) =
      (((selectSites sd mp).map Site.genotypes)[t]?).bind (fun row => row[j]?) := by
  have h := (mergeGenos_fold_entry mp (totalSamples files) files
    (List.replicate mp.length (List.replicate (totalSamples files) MISSING_DATA)) 0
    (fun row hrow => by
      rw [List.eq_of_mem_replicate hrow]
      exact List.length_replicate _ _)
    (by omega)
    (fun sd2 hsd2 => by
      rw [List.length_replicate]
      exact selectSites_length sd2 mp (hsorted sd2 hsd2) hmp (hsub sd2 hsd2))
    hwf).2 i sd hi t j hj
  rw [Nat.zero_add] at h
  exact h

theorem modifyAt_mem {α : Type} :
    ∀ (l : List α) (i : Nat) (f : α → α) (x : α), x ∈ modifyAt l i f →
      x ∈ l ∨ ∃ y ∈ l, x = f y := by
  intro l
  induction l with
  | nil =>
    intro i f x hx
    cases hx
  | cons a l ih =>
    intro i f x hx
    cases i with
    | zero =>
      rcases List.mem_cons.mp hx with rfl | hx2
      · exact Or.inr ⟨a, List.mem_cons_self _ _, rfl⟩
      · exact Or.inl (List.mem_cons_of_mem _ hx2)
    | succ i =>
      rcases List.mem_cons.mp hx with rfl | hx2
      · exact Or.inl (List.mem_cons_self _ _)
      · rcases ih i f x hx2 with h2 | ⟨y, hy, h3⟩
        · exact Or.inl (List.mem_cons_of_mem _ h2)
        · exact Or.inr ⟨y, List.mem_cons_of_mem _ hy, h3⟩

theorem scatter_fold_widths (W c : Nat) :
    ∀ (ps : List (Nat × List Int)) (m : List (List Int)),
      (∀ row ∈ m, row.length = W) → (∀ p ∈ ps, c + p.2.length ≤ W) →
      ∀ row ∈ ps.foldl (fun acc p => modifyAt acc p.1 (fun row => setSegment row c p.2)) m,
        row.length = W := by
  intro ps
  induction ps with
  | nil =>
    intro m hm _ row hrow
    exact hm row hrow
  | cons p ps ih =>
    intro m hm hb row hrow
    refine ih (modifyAt m p.1 (fun row => setSegment row c p.2)) ?_
      (fun q hq => hb q (List.mem_cons_of_mem _ hq)) row hrow
    intro row2 hrow2
    rcases modifyAt_mem m p.1 _ row2 hrow2 with h2 | ⟨y, hy, h3⟩
    · exact hm row2 h2
    · rw [h3, setSegment_length]
      · exact hm y hy
      · rw [hm y hy]
        exact hb p (List.mem_cons_self _ _)

theorem scatterRows_widths (W : Nat) (m : List (List Int)) (rowIdx : List Nat) (c : Nat)
    (blocks : List (List Int)) (hm : ∀ row ∈ m, row.length = W)
    (hb : ∀ b ∈ blocks, c + b.length ≤ W) :
    ∀ row ∈ scatterRows m rowIdx c blocks, row.length = W := by
  apply scatter_fold_widths W c (rowIdx.zip blocks) m hm
  intro p hp
  exact hb p.2 (List.mem_zip hp).2

theorem selectedRowIndices_sublist_range (df : List CRow) (i : Nat) :
    (selectedRowIndices df i).Sublist (List.range df.length) := by
  unfold selectedRowIndices
  have h := List.Sublist.map Prod.fst
    (List.filter_sublist (l := df.enum) (p := fun p => (p.2.ids.getD i none).isSome))
  rw [List.enum_map_fst] at h
  exact h

theorem selectedRowIndices_nodup (df : List CRow) (i : Nat) :
    (selectedRowIndices df i).Nodup :=
  (List.nodup_range _).sublist (selectedRowIndices_sublist_range df i)

theorem selectedRowIndices_lt (df : List CRow) (i : Nat) :
    ∀ r ∈ selectedRowIndices df i, r < df.length := fun r hr =>
  List.mem_range.mp ((selectedRowIndices_sublist_range df i).subset hr)

theorem genosUsed_length (df : List CRow) (i : Nat) (sd : SampleData) :
    (genosUsed df i sd).length = sd.sites.length := by
  unfold genosUsed
  split
  · rw [List.length_map]
  · unfold maskedGenotypes
    rw [List.length_map, List.enum_length]

theorem genosUsed_widths (df : List CRow) (i : Nat) (sd : SampleData)
    (hwf : ∀ s ∈ sd.sites, s.genotypes.length = sd.num_samples) :
    ∀ b ∈ genosUsed df i sd, b.length = sd.num_samples := by
  intro b hb
  unfold genosUsed at hb
  split at hb
  · obtain ⟨s, hs, rfl⟩ := List.mem_map.mp hb
    exact hwf s hs
  · unfold maskedGenotypes at hb
    obtain ⟨ks, hks, rfl⟩ := List.mem_map.mp hb
    have hmem : ks.2 ∈ sd.sites := by
      have h2 : ks.2 ∈ sd.sites.enum.map Prod.snd := List.mem_map.mpr ⟨ks, hks, rfl⟩
      rw [List.enum_map_snd] at h2
      exact h2
    split
    · rw [List.length_map]
      exact hwf ks.2 hmem
    · exact hwf ks.2 hmem

theorem enum_map_snd_f {α β : Type} (f : α → β) (l : List α) :
    l.enum.map (fun q => f q.2) = l.map f := by
  have h : (fun q : Nat × α => f q.2) = (f ∘ Prod.snd) := rfl
  rw [h, ← List.map_map, List.enum_map_snd]

theorem getElem?_zip {α β : Type} :
    ∀ (la : List α) (lb : List β) (n : Nat) (x : α) (y : β),
      la[n]? = some x → lb[n]? = some y → (la.zip lb)[n]? = some (x, y) := by
  intro la
  induction la with
  | nil =>
    intro l2 k x y h1 _
    rw [List.getElem?_nil] at h1
    cases h1
  | cons a l1 ih =>
    intro l2 k x y h1 h2
    cases l2 with
    | nil =>
      rw [List.getElem?_nil] at h2
      cases h2
    | cons b l2 =>
      cases k with
      | zero =>
        rw [List.getElem?_cons_zero] at h1 h2
        injection h1 with h1
        injection h2 with h2
        subst h1
        subst h2
        rw [List.zip_cons_cons, List.getElem?_cons_zero]
      | succ k =>
        rw [List.getElem?_cons_succ] at h1 h2
        rw [List.zip_cons_cons, List.getElem?_cons_succ]
        exact ih l2 k x y h1 h2

theorem mem_enum_getElem {α : Type} (l : List α) (p : Nat × α) (hp : p ∈ l.enum) :
    l[p.1]? = some p.2 := by
  obtain ⟨t, ht⟩ := List.getElem?_of_mem hp
  rw [List.getElem?_enum] at ht
  rcases hl : l[t]? with _ | a
  · rw [hl] at ht
    cases ht
  · rw [hl] at ht
    injection ht with ht
    rw [← ht]
    exact hl

theorem combineScatter_fold (df : List CRow) (W : Nat) :
    ∀ (ps : List (Nat × SampleData)) (m : List (List Int)) (c : Nat),
      (∀ row ∈ m, row.length = W) →
      m.length = df.length →
      c + (ps.map (fun q => q.2.num_samples)).sum ≤ W →
      (∀ q ∈ ps, ∀ b ∈ genosUsed df q.1 q.2, b.length = q.2.num_samples) →
      (∀ r c2, c2 < c →
        matrixEntry ((ps.foldl (fun acc q =>
            (scatterRows acc.1 (selectedRowIndices df q.1) acc.2 (genosUsed df q.1 q.2),
             acc.2 + q.2.num_samples)) (m, c)).1) r c2 = matrixEntry m r c2) ∧
      (∀ (u : Nat) (q : Nat × SampleData), ps[u]? = some q → ∀ (r j : Nat),
        j < q.2.num_samples →
        matrixEntry ((ps.foldl (fun acc q =>
            (scatterRows acc.1 (selectedRowIndices df q.1) acc.2 (genosUsed df q.1 q.2),
             acc.2 + q.2.num_samples)) (m, c)).1) r
            (c + ((ps.take u).map (fun q2 => q2.2.num_samples)).sum + j) =
          match ((selectedRowIndices df q.1).zip (genosUsed df q.1 q.2)).find?
              (fun pr => pr.1 == r) with
          | some pr => pr.2[j]?
          | none => matrixEntry m r
              (c + ((ps.take u).map (fun q2 => q2.2.num_samples)).sum + j)) := by
  intro ps
  induction ps with
  | nil =>
    intro m c hm _ _ _
    refine ⟨fun r c2 _ => rfl, fun u q hu => ?_⟩
    simp at hu
  | cons q ps ih =>
    intro m c hm hmlen hcle hbw
    have hsum : (c + q.2.num_samples) + (ps.map (fun q2 => q2.2.num_samples)).sum ≤ W := by
      rw [List.map_cons, List.sum_cons] at hcle
      omega
    have hcW : c + q.2.num_samples ≤ W := by omega
    have hbw0 : ∀ b ∈ genosUsed df q.1 q.2, b.length = q.2.num_samples :=
      hbw q (List.mem_cons_self _ _)
    have hW2 : ∀ row ∈ scatterRows m (selectedRowIndices df q.1) c (genosUsed df q.1 q.2),
        row.length = W := scatterRows_widths W m _ c _ hm
      (fun b hb => by rw [hbw0 b hb]; exact hcW)
    have hlen2 : (scatterRows m (selectedRowIndices df q.1) c (genosUsed df q.1 q.2)).length
        = m.length := scatterRows_length m _ c _
    have hndz : (((selectedRowIndices df q.1).zip (genosUsed df q.1 q.2)).map Prod.fst).Nodup := by
      rw [map_fst_zip_take]
      exact (selectedRowIndices_nodup df q.1).sublist (List.take_sublist _ _)
    have hm2 : ∀ r2 : Nat,
        (scatterRows m (selectedRowIndices df q.1) c (genosUsed df q.1 q.2))[r2]? =
          match ((selectedRowIndices df q.1).zip (genosUsed df q.1 q.2)).find?
              (fun p => p.1 == r2) with
          | some p => (m[r2]?).map (fun row => setSegment row c p.2)
          | none => m[r2]? := by
      intro r2
      show (((selectedRowIndices df q.1).zip (genosUsed df q.1 q.2)).foldl
          (fun acc p => modifyAt acc p.1 (fun row => setSegment row c p.2)) m)[r2]? = _
      exact scatterRows_fold_getElem _ m c hndz r2
    have hpresL : ∀ r2 c2, c2 < c →
        matrixEntry (scatterRows m (selectedRowIndices df q.1) c (genosUsed df q.1 q.2)) r2 c2
          = matrixEntry m r2 c2 := by
      intro r2 c2 hc2
      unfold matrixEntry
      rw [hm2 r2]
      rcases hf : ((selectedRowIndices df q.1).zip (genosUsed df q.1 q.2)).find?
          (fun p => p.1 == r2) with _ | p
      · rw [hf]
      · rw [hf]
        rcases hmr : m[r2]? with _ | row
        · rfl
        · show (setSegment row c p.2)[c2]? = row[c2]?
          apply setSegment_getElem_left row c p.2 c2 hc2
          rw [hm row (List.getElem?_mem hmr)]
          omega
    have hpresR : ∀ r2 c2, c + q.2.num_samples ≤ c2 →
        matrixEntry (scatterRows m (selectedRowIndices df q.1) c (genosUsed df q.1 q.2)) r2 c2
          = matrixEntry m r2 c2 := by
      intro r2 c2 hc2
      unfold matrixEntry
      rw [hm2 r2]
      rcases hf : ((selectedRowIndices df q.1).zip (genosUsed df q.1 q.2)).find?
          (fun p => p.1 == r2) with _ | p
      · rw [hf]
      · rw [hf]
        rcases hmr : m[r2]? with _ | row
        · rfl
        · show (setSegment row c p.2)[c2]? = row[c2]?
          apply setSegment_getElem_right row c p.2 c2
          · rw [hbw0 p.2 (List.mem_zip (List.mem_of_find?_eq_some hf)).2]
            omega
          · rw [hm row (List.getElem?_mem hmr)]
            omega
    obtain ⟨ihA, ihB⟩ := ih (scatterRows m (selectedRowIndices df q.1) c (genosUsed df q.1 q.2))
      (c + q.2.num_samples) hW2 (by rw [hlen2]; exact hmlen) hsum
      (fun q2 hq2 => hbw q2 (List.mem_cons_of_mem _ hq2))
    have hstep : ((q :: ps).foldl (fun acc q =>
        (scatterRows acc.1 (selectedRowIndices df q.1) acc.2 (genosUsed df q.1 q.2),
         acc.2 + q.2.num_samples)) (m, c)) =
        (ps.foldl (fun acc q =>
          (scatterRows acc.1 (selectedRowIndices df q.1) acc.2 (genosUsed df q.1 q.2),
           acc.2 + q.2.num_samples))
          (scatterRows m (selectedRowIndices df q.1) c (genosUsed df q.1 q.2),
           c + q.2.num_samples)) := rfl
    constructor
    · intro r c2 hc2
      rw [hstep, ihA r c2 (by omega)]
      exact hpresL r c2 hc2
    · intro u q2 hu r j hj
      cases u with
      | zero =>
        rw [List.getElem?_cons_zero] at hu
        injection hu with hu
        subst hu
        rw [hstep]
        simp only [List.take_zero, List.map_nil, List.sum_nil, Nat.add_zero]
        rw [ihA r (c + j) (by omega)]
        rcases hf : ((selectedRowIndices df q.1).zip (genosUsed df q.1 q.2)).find?
            (fun pr => pr.1 == r) with _ | pr
        · rw [hf]
          unfold matrixEntry
          rw [hm2 r, hf]
        · rw [hf]
          have hprmem := List.mem_of_find?_eq_some hf
          have hpr0 := List.find?_some hf
          have hpr1 : pr.1 = r := beq_iff_eq.mp hpr0
          have hpr2len : pr.2.length = q.2.num_samples := hbw0 pr.2 (List.mem_zip hprmem).2
          have hrlt : r < m.length := by
            rw [hmlen]
            apply selectedRowIndices_lt df q.1
            rw [← hpr1]
            have h3 : pr.1 ∈ ((selectedRowIndices df q.1).zip
                (genosUsed df q.1 q.2)).map Prod.fst := List.mem_map.mpr ⟨pr, hprmem, rfl⟩
            rw [map_fst_zip_take] at h3
            exact (List.take_sublist _ _).subset h3
          rcases hmr : m[r]? with _ | row
          · have h4 := List.getElem?_eq_none_iff.mp hmr
            omega
          · unfold matrixEntry
            rw [hm2 r, hf, hmr]
            show (setSegment row c pr.2)[c + j]? = pr.2[j]?
            apply setSegment_getElem_mid row c pr.2 j
            · rw [hpr2len]
              exact hj
            · rw [hm row (List.getElem?_mem hmr)]
              omega
      | succ u =>
        rw [List.getElem?_cons_succ] at hu
        rw [hstep, List.take_succ_cons, List.map_cons, List.sum_cons,
          ← Nat.add_assoc c q.2.num_samples
            ((ps.take u).map (fun q2 => q2.2.num_samples)).sum]
        have h2 := ihB u q2 hu r j hj
        rw [h2]
        rcases hf : ((selectedRowIndices df q2.1).zip (genosUsed df q2.1 q2.2)).find?
            (fun pr => pr.1 == r) with _ | pr
        · rw [hf]
          exact hpresR r _ (by omega)
        · rw [hf]

theorem sel_ids_eq_range (df : List CRow) (processed : List SampleData)
    (hinv : dfInv df processed)
    (hpos : (df.map CRow.position).Sorted (· < ·))
    (i : Nat) (sd : SampleData) (hi : processed[i]? = some sd)
    (hsd : (sitePositions sd).Sorted (· < ·)) :
    (df.enum.filter (fun p => (p.2.ids.getD i none).isSome)).map
      (fun p => (p.2.ids.getD i none).getD 0) = List.range sd.sites.length := by
  obtain ⟨_, hFiles, _, _⟩ := hinv
  have hcorr := (hFiles i sd hi).1
  have hcount := (hFiles i sd hi).2
  have hItem : ∀ p, p ∈ df.enum.filter (fun p => (p.2.ids.getD i none).isSome) →
      ∃ k, p.2.ids.getD i none = some k ∧
        ∃ s, sd.sites[k]? = some s ∧ p.2.position = s.position := by
    intro p hp
    have hpf := List.mem_filter.mp hp
    obtain ⟨k, hk⟩ := Option.isSome_iff_exists.mp hpf.2
    obtain ⟨s, hs, hsp, _⟩ := hcorr p.2 (List.getElem?_mem (mem_enum_getElem df p hpf.1)) k hk
    exact ⟨k, hk, s, hs, hsp⟩
  have hposMono : ∀ (a b : Nat) (ra rb : CRow), a < b →
      df[a]? = some ra → df[b]? = some rb → ra.position < rb.position := by
    intro a b ra rb hab ha hb
    obtain ⟨hal, hae⟩ := List.getElem?_eq_some_iff.mp ha
    obtain ⟨hbl, hbe⟩ := List.getElem?_eq_some_iff.mp hb
    have h3 := List.pairwise_iff_getElem.mp hpos a b
      (by rw [List.length_map]; exact hal) (by rw [List.length_map]; exact hbl) hab
    rw [List.getElem_map, List.getElem_map] at h3
    rw [hae, hbe] at h3
    exact h3
  have hsMono : ∀ (a b : Nat) (sa sb : Site), a < b →
      sd.sites[a]? = some sa → sd.sites[b]? = some sb → sa.position < sb.position := by
    intro a b sa sb hab ha hb
    obtain ⟨hal, hae⟩ := List.getElem?_eq_some_iff.mp ha
    obtain ⟨hbl, hbe⟩ := List.getElem?_eq_some_iff.mp hb
    have h3 := List.pairwise_iff_getElem.mp hsd a b
      (by rw [show (sitePositions sd).length = sd.sites.length from List.length_map _ _]
          exact hal)
      (by rw [show (sitePositions sd).length = sd.sites.length from List.length_map _ _]
          exact hbl) hab
    unfold sitePositions at h3
    rw [List.getElem_map, List.getElem_map] at h3
    rw [hae, hbe] at h3
    exact h3
  have hselPair : (df.enum.filter (fun p => (p.2.ids.getD i none).isSome)).Pairwise
      (fun a b : Nat × CRow => a.1 < b.1) := by
    have h2 : (df.enum.map Prod.fst).Pairwise (· < ·) := by
      rw [List.enum_map_fst]
      exact List.pairwise_lt_range _
    exact List.Pairwise.sublist (List.filter_sublist _) (List.pairwise_map.mp h2)
  apply list_eq_of_sorted_lt_of_mem_iff
  · -- the listed site ids are strictly increasing
    apply List.pairwise_map.mpr
    refine List.Pairwise.imp_of_mem ?_ hselPair
    intro a b ha hb hab
    obtain ⟨ka, hka, sa, hsa, hpa⟩ := hItem a ha
    obtain ⟨kb, hkb, sb, hsb, hpb⟩ := hItem b hb
    rw [hka, hkb]
    show ka < kb
    have hda := mem_enum_getElem df a (List.mem_filter.mp ha).1
    have hdb := mem_enum_getElem df b (List.mem_filter.mp hb).1
    have hposab : a.2.position < b.2.position := hposMono a.1 b.1 a.2 b.2 hab hda hdb
    rw [hpa, hpb] at hposab
    by_contra hnot
    have hba : kb ≤ ka := Nat.le_of_not_lt hnot
    rcases Nat.eq_or_lt_of_le hba with heq | hlt
    · subst heq
      rw [hsa] at hsb
      injection hsb with hsb
      rw [hsb] at hposab
      omega
    · have h6 := hsMono kb ka sb sa hlt hsb hsa
      omega
  · exact List.pairwise_lt_range _
  · intro k
    rw [List.mem_range]
    constructor
    · intro hk
      obtain ⟨p, hp, hpk⟩ := List.mem_map.mp hk
      obtain ⟨k2, hk2, s, hs, _⟩ := hItem p hp
      rw [hk2] at hpk
      have hk3 : k2 = k := hpk
      subst hk3
      exact (List.getElem?_eq_some_iff.mp hs).1
    · intro hk
      have hc := hcount k hk
      have hpos2 : 0 < df.countP (fun r => decide (r.ids.getD i none = some k)) := by omega
      obtain ⟨rrow, hrrow, hrp⟩ := List.countP_pos_iff.mp hpos2
      obtain ⟨ridx, hridx⟩ := List.getElem?_of_mem hrrow
      have henum : df.enum[ridx]? = some (ridx, rrow) := by
        rw [List.getElem?_enum, hridx]
        rfl
      have hrp2 : rrow.ids.getD i none = some k := of_decide_eq_true hrp
      have hselMem : (ridx, rrow) ∈ df.enum.filter
          (fun p => (p.2.ids.getD i none).isSome) := by
        refine List.mem_filter.mpr ⟨List.getElem?_mem henum, ?_⟩
        show (rrow.ids.getD i none).isSome = true
        rw [hrp2]
        rfl
      refine List.mem_map.mpr ⟨(ridx, rrow), hselMem, ?_⟩
      show (rrow.ids.getD i none).getD 0 = k
      rw [hrp2]
      rfl

theorem sel_getElem_ids (df : List CRow) (processed : List SampleData)
    (hinv : dfInv df processed)
    (hpos : (df.map CRow.position).Sorted (· < ·))
    (i : Nat) (sd : SampleData) (hi : processed[i]? = some sd)
    (hsd : (sitePositions sd).Sorted (· < ·)) (t : Nat) (pr : Nat × CRow)
    (hpr : (df.enum.filter (fun p => (p.2.ids.getD i none).isSome))[t]? = some pr) :
    pr.2.ids.getD i none = some t := by
  have h := sel_ids_eq_range df processed hinv hpos i sd hi hsd
  have h2 : ((df.enum.filter (fun p => (p.2.ids.getD i none).isSome)).map
      (fun p => (p.2.ids.getD i none).getD 0))[t]? =
      some ((pr.2.ids.getD i none).getD 0) := by
    rw [List.getElem?_map, hpr]
    rfl
  rw [h] at h2
  have ht : t < sd.sites.length := by
    have h3 := (List.getElem?_eq_some_iff.mp h2).1
    simpa using h3
  rw [List.getElem?_range ht] at h2
  injection h2 with h2
  have hprmem := List.getElem?_mem hpr
  have hpf := List.mem_filter.mp hprmem
  obtain ⟨k, hk⟩ := Option.isSome_iff_exists.mp hpf.2
  rw [hk] at h2
  have h4 : t = k := h2
  rw [hk, h4]

theorem combine_find?_some (df : List CRow) (processed : List SampleData)
    (hinv : dfInv df processed) (hpos : (df.map CRow.position).Sorted (· < ·))
    (i : Nat) (sd : SampleData) (hi : processed[i]? = some sd)
    (hsd : (sitePositions sd).Sorted (· < ·))
    (blocks : List (List Int)) (hblen : blocks.length = sd.sites.length)
    (r : Nat) (rrow : CRow) (hr : df[r]? = some rrow)
    (k : Nat) (hk : rrow.ids.getD i none = some k) :
    ∃ b, blocks[k]? = some b ∧
      ((selectedRowIndices df i).zip blocks).find? (fun pr => pr.1 == r) = some (r, b) := by
  have hkn : k < sd.sites.length := by
    obtain ⟨s, hs, _, _⟩ := (hinv.2.1 i sd hi).1 rrow (List.getElem?_mem hr) k hk
    exact (List.getElem?_eq_some_iff.mp hs).1
  have henum : df.enum[r]? = some (r, rrow) := by
    rw [List.getElem?_enum, hr]
    rfl
  have hselMem : (r, rrow) ∈ df.enum.filter (fun p => (p.2.ids.getD i none).isSome) := by
    refine List.mem_filter.mpr ⟨List.getElem?_mem henum, ?_⟩
    show (rrow.ids.getD i none).isSome = true
    rw [hk]
    rfl
  obtain ⟨t, htsel⟩ := List.getElem?_of_mem hselMem
  have hids := sel_getElem_ids df processed hinv hpos i sd hi hsd t (r, rrow) htsel
  have htk : t = k := by
    have hids2 : rrow.ids.getD i none = some t := hids
    rw [hk] at hids2
    injection hids2 with h5
    exact h5.symm
  subst htk
  have hrowIdx : (selectedRowIndices df i)[t]? = some r := by
    unfold selectedRowIndices
    rw [List.getElem?_map, htsel]
    rfl
  obtain ⟨b, hb⟩ : ∃ b, blocks[t]? = some b := by
    rcases hbk : blocks[t]? with _ | b
    · have h6 := List.getElem?_eq_none_iff.mp hbk
      omega
    · exact ⟨b, rfl⟩
  refine ⟨b, hb, ?_⟩
  have hzip := getElem?_zip _ _ t r b hrowIdx hb
  have hndz : (((selectedRowIndices df i).zip blocks).map Prod.fst).Nodup := by
    rw [map_fst_zip_take]
    exact (selectedRowIndices_nodup df i).sublist (List.take_sublist _ _)
  exact find?_fst_eq _ t (r, b) hndz hzip

theorem combine_find?_none (df : List CRow) (i : Nat)
    (r : Nat) (rrow : CRow) (hr : df[r]? = some rrow)
    (hk : rrow.ids.getD i none = none) (blocks : List (List Int)) :
    ((selectedRowIndices df i).zip blocks).find? (fun pr => pr.1 == r) = none := by
  apply find?_fst_none
  intro p hp hpr
  have hp1 : p.1 ∈ selectedRowIndices df i := by
    have h3 : p.1 ∈ ((selectedRowIndices df i).zip blocks).map Prod.fst :=
      List.mem_map.mpr ⟨p, hp, rfl⟩
    rw [map_fst_zip_take] at h3
    exact (List.take_sublist _ _).subset h3
  rw [hpr] at hp1
  unfold selectedRowIndices at hp1
  obtain ⟨q, hq, hq1⟩ := List.mem_map.mp hp1
  have hqf := List.mem_filter.mp hq
  have hdq := mem_enum_getElem df q hqf.1
  rw [hq1, hr] at hdq
  injection hdq with hdq
  have hpf := hqf.2
  rw [← hdq, hk] at hpf
  simp at hpf

theorem sorted_lt_mem_le_getLast :
    ∀ (l : List Nat) (x last : Nat), l.Sorted (· < ·) → l.getLast? = some last →
      x ∈ l → x ≤ last := by
  intro l
  induction l with
  | nil =>
    intro x last _ _ hx
    cases hx
  | cons y ys ih =>
    intro x last hs hlast hx
    cases ys with
    | nil =>
      rw [show ([y] : List Nat).getLast? = some y from rfl] at hlast
      injection hlast with h
      have h2 : x = y := List.mem_singleton.mp hx
      omega
    | cons z zs =>
      rw [List.getLast?_cons_cons] at hlast
      rcases List.mem_cons.mp hx with rfl | hx2
      · have hlmem : last ∈ z :: zs := List.mem_of_mem_getLast? hlast
        have h2 := List.rel_of_sorted_cons hs last hlmem
        omega
      · exact ih x last (List.sorted_cons.mp hs).2 hlast hx2

theorem addSiteRow_ok_lt (acc : List OutSite) (s : OutSite) (out : List OutSite)
    (h : addSiteRow acc s = .ok out) :
    ∀ prev, acc.getLast? = some prev → prev.position < s.position := by
  intro prev hprev
  unfold addSiteRow at h
  rw [hprev] at h
  split at h
  · rename_i prev2 heq
    injection heq with heq
    subst heq
    split at h
    · assumption
    · cases h
  · rename_i heq
    cases heq

theorem addAllSites_fold_sorted :
    ∀ (rows acc out : List OutSite),
      ((acc.map OutSite.position).Sorted (· < ·)) →
      rows.foldlM addSiteRow acc = .ok out →
      (((acc ++ rows).map OutSite.position).Sorted (· < ·)) := by
  intro rows
  induction rows with
  | nil =>
    intro acc out hs _
    rw [List.append_nil]
    exact hs
  | cons s rows ih =>
    intro acc out hs h
    rw [List.foldlM_cons] at h
    cases ha : addSiteRow acc s with
    | error e =>
      rw [ha] at h
      cases h
    | ok acc2 =>
      rw [ha] at h
      have h2 : rows.foldlM addSiteRow acc2 = .ok out := h
      have hacc2 : acc2 = acc ++ [s] := addSiteRow_ok acc s acc2 ha
      subst hacc2
      have hs2 : (((acc ++ [s]).map OutSite.position).Sorted (· < ·)) := by
        rw [List.map_append]
        apply (List.pairwise_append).mpr
        refine ⟨hs, List.pairwise_singleton _ _, ?_⟩
        intro x hx y hy
        have hy2 : y = s.position := by
          rcases List.mem_map.mp hy with ⟨o, ho, rfl⟩
          rw [List.mem_singleton.mp ho]
        subst hy2
        rcases hlast : acc.getLast? with _ | prev
        · rw [List.getLast?_eq_none_iff.mp hlast] at hx
          cases hx
        · have h3 := addSiteRow_ok_lt acc s (acc ++ [s]) ha prev hlast
          have h4 : x ≤ prev.position := by
            apply sorted_lt_mem_le_getLast (acc.map OutSite.position) x prev.position hs
            · rw [List.getLast?_map, hlast]
              rfl
            · exact hx
          omega
      have h5 := ih (acc ++ [s]) out hs2 h2
      rw [List.append_assoc] at h5
      exact h5

theorem addAllSites_sorted (rows out : List OutSite) (h : addAllSites rows = .ok out) :
    (rows.map OutSite.position).Sorted (· < ·) := by
  have h2 := addAllSites_fold_sorted rows [] out (by simp) h
  simpa using h2

theorem dfInv_perm (l l2 : List CRow) (processed : List SampleData)
    (hperm : List.Perm l l2) (hinv : dfInv l processed) : dfInv l2 processed := by
  obtain ⟨h1, h2, h3, h4⟩ := hinv
  refine ⟨fun r hr => h1 r (hperm.mem_iff.mpr hr), ?_, ?_, ?_⟩
  · intro i sd hisd
    refine ⟨fun r hr k hk => (h2 i sd hisd).1 r (hperm.mem_iff.mpr hr) k hk, ?_⟩
    intro k hk
    rw [← hperm.countP_eq]
    exact (h2 i sd hisd).2 k hk
  · exact ((hperm.map crowKey).nodup_iff).mp h3
  · rw [← List.toFinset_eq_of_perm _ _ (hperm.map crowKey)]
    exact h4

theorem dfInv_sortedCombinedDf (f0 : SampleData) (rest : List SampleData)
    (hnd : ∀ sd ∈ f0 :: rest, (sitePositions sd).Nodup) :
    dfInv (sortedCombinedDf (f0 :: rest)) (f0 :: rest) :=
  dfInv_perm _ _ _ (List.perm_insertionSort crowLe (combinedDf (f0 :: rest))).symm
    (dfInv_combinedDf f0 rest hnd)

theorem combineRows_map_position (df : List CRow) (genos : List (List Int))
    (h : df.length ≤ genos.length) :
    (combineRows df genos).map OutSite.position = df.map CRow.position := by
  unfold combineRows
  rw [List.map_map]
  have h2 : (OutSite.position ∘ fun rg : CRow × List Int =>
      ({ position := rg.1.position, genotypes := rg.2,
         alleles := [some rg.1.anc, rg.1.deriv] } : OutSite)) =
      (CRow.position ∘ Prod.fst) := rfl
  rw [h2, ← List.map_map, map_fst_zip_take, List.take_of_length_le h]

theorem runCombine_pos_sorted (f0 : SampleData) (rest : List SampleData) (out : SdOutput)
    (hok : runCombineSampledata (f0 :: rest) = .ok out) :
    ((sortedCombinedDf (f0 :: rest)).map CRow.position).Sorted (· < ·) := by
  rw [runCombineSampledata] at hok
  split at hok
  · cases hok
  · rename_i seqLen hload
    split at hok
    · cases hok
    · rename_i sites hadd
      have h2 := addAllSites_sorted _ _ hadd
      rw [combineRows_map_position] at h2
      · exact h2
      · rw [combineGenos_length]

theorem sampleOffset_add_lt (files : List SampleData) :
    ∀ (i : Nat) (sd : SampleData), files[i]? = some sd →
      ∀ j : Nat, j < sd.num_samples → sampleOffset files i + j < totalSamples files := by
  induction files with
  | nil =>
    intro i sd hi
    rw [List.getElem?_nil] at hi
    cases hi
  | cons f fs ih =>
    intro i sd hi j hj
    cases i with
    | zero =>
      rw [List.getElem?_cons_zero] at hi
      injection hi with hi
      subst hi
      rw [sampleOffset_zero, totalSamples_cons]
      omega
    | succ i =>
      rw [List.getElem?_cons_succ] at hi
      rw [sampleOffset_cons_succ, totalSamples_cons]
      have h2 := ih i sd hi j hj
      omega

/-- C1: the combined genotype matrices of combine-sampledata and
merge-sampledata preserve per-file sample columns in input order.  For any
position-sorted input files with well-formed genotype rows and any file `i`:
in the merge matrix (over the biallelic-filtered intersection positions) the
entry in row `t`, column `sampleOffset + j` is sample `j` of file `i`'s site
at the `t`-th kept position; in the combine matrix of a successful run, the
entry in dataframe row `r`, column `sampleOffset + j` is sample `j` of file
`i`'s (multiallelic-masked, for `i > 0`) genotype row of the site the
dataframe row assigns to file `i`, and `tskit.MISSING_DATA` when that row
carries no site of file `i`. -/
theorem c1_genotype_column_layout (f0 : SampleData) (rest : List SampleData)
    (hsorted : ∀ sd ∈ f0 :: rest, (sitePositions sd).Sorted (· < ·))
    (hwf : ∀ sd ∈ f0 :: rest, ∀ s ∈ sd.sites, s.genotypes.length = sd.num_samples)
    (i : Nat) (sd : SampleData) (hi : (f0 :: rest)[i]? = some sd)
    (j : Nat) (hj : j < sd.num_samples) :
    (∀ (bi : List Bool),
      (selectSites sd (selectMask (mergedPositions0 (f0 :: rest)) bi)).map Site.position =
        selectMask (mergedPositions0 (f0 :: rest)) bi ∧
      ∀ (t : Nat),
        matrixEntry (mergeGenos (f0 :: rest) (selectMask (mergedPositions0 (f0 :: rest)) bi)) t
            (sampleOffset (f0 :: rest) i + j) =
          (((selectSites sd (selectMask (mergedPositions0 (f0 :: rest)) bi)).map
              Site.genotypes)[t]?).bind (fun row => row[j]?)) ∧
    (∀ (out : SdOutput), runCombineSampledata (f0 :: rest) = .ok out →
      ∀ (r : Nat) (rrow : CRow), (sortedCombinedDf (f0 :: rest))[r]? = some rrow →
        (∀ k : Nat, rrow.ids.getD i none = some k →
          matrixEntry (combineGenos (sortedCombinedDf (f0 :: rest)) (f0 :: rest)) r
              (sampleOffset (f0 :: rest) i + j) =
            ((genosUsed (sortedCombinedDf (f0 :: rest)) i sd)[k]?).bind
              (fun row => row[j]?)) ∧
        (rrow.ids.getD i none = none →
          matrixEntry (combineGenos (sortedCombinedDf (f0 :: rest)) (f0 :: rest)) r
              (sampleOffset (f0 :: rest) i + j) = some MISSING_DATA)) := by
  have hsdmem : sd ∈ f0 :: rest := List.getElem?_mem hi
  have hmpS : ∀ bi : List Bool,
      (selectMask (mergedPositions0 (f0 :: rest)) bi).Sorted (· < ·) := fun bi =>
    List.Pairwise.sublist (selectMask_sublist _ _) (mergedPositions0_sorted_lt f0 rest)
  have hmpSub : ∀ (bi : List Bool), ∀ sd2 ∈ f0 :: rest,
      ∀ p ∈ selectMask (mergedPositions0 (f0 :: rest)) bi, p ∈ sitePositions sd2 := by
    intro bi sd2 hsd2 p hp
    have hp2 := (selectMask_sublist _ _).subset hp
    have h3 := (mergedPositions0_mem f0 rest p).mp hp2
    rcases List.mem_cons.mp hsd2 with rfl | hsd3
    · exact h3.1
    · exact h3.2 sd2 hsd3
  constructor
  · intro bi
    constructor
    · exact selectSites_positions sd _ (hsorted sd hsdmem) (hmpS bi) (hmpSub bi sd hsdmem)
    · intro t
      exact mergeGenos_entry (f0 :: rest) _ hsorted (hmpS bi) (hmpSub bi) hwf i sd hi t j hj
  · intro out hok r rrow hr
    have hnd : ∀ sd2 ∈ f0 :: rest, (sitePositions sd2).Nodup :=
      fun sd2 h2 => (hsorted sd2 h2).nodup
    have hinv : dfInv (sortedCombinedDf (f0 :: rest)) (f0 :: rest) :=
      dfInv_sortedCombinedDf f0 rest hnd
    have hpos := runCombine_pos_sorted f0 rest out hok
    have hfold := combineScatter_fold (sortedCombinedDf (f0 :: rest))
      (totalSamples (f0 :: rest)) (f0 :: rest).enum
      (List.replicate (sortedCombinedDf (f0 :: rest)).length
        (List.replicate (totalSamples (f0 :: rest)) MISSING_DATA)) 0
      (fun row hrow => by
        rw [List.eq_of_mem_replicate hrow]
        exact List.length_replicate _ _)
      (List.length_replicate _ _)
      (by
        rw [enum_map_snd_f SampleData.num_samples, Nat.zero_add]
        exact Nat.le_refl _)
      (fun q hq => genosUsed_widths _ q.1 q.2 (hwf q.2 (by
        have h2 : q.2 ∈ (f0 :: rest).enum.map Prod.snd := List.mem_map.mpr ⟨q, hq, rfl⟩
        rw [List.enum_map_snd] at h2
        exact h2)))
    obtain ⟨_, hfoldB⟩ := hfold
    have henum_i : (f0 :: rest).enum[i]? = some (i, sd) := by
      rw [List.getElem?_enum, hi]
      rfl
    have hB := hfoldB i (i, sd) henum_i r j hj
    have hcol : ((((f0 :: rest).enum.take i)).map (fun q2 => q2.2.num_samples)).sum =
        sampleOffset (f0 :: rest) i := by
      rw [List.map_take, enum_map_snd_f SampleData.num_samples]
      unfold sampleOffset
      rw [List.map_take]
    rw [hcol, Nat.zero_add] at hB
    constructor
    · intro k hkids
      obtain ⟨b, hbk, hfind⟩ := combine_find?_some (sortedCombinedDf (f0 :: rest))
        (f0 :: rest) hinv hpos i sd hi (hsorted sd hsdmem)
        (genosUsed (sortedCombinedDf (f0 :: rest)) i sd) (genosUsed_length _ _ _)
        r rrow hr k hkids
      rw [hfind] at hB
      have hgoal : matrixEntry (combineGenos (sortedCombinedDf (f0 :: rest)) (f0 :: rest)) r
          (sampleOffset (f0 :: rest) i + j) = b[j]? := hB
      rw [hgoal, hbk]
      rfl
    · intro hkids
      have hfind := combine_find?_none (sortedCombinedDf (f0 :: rest)) i r rrow hr hkids
        (genosUsed (sortedCombinedDf (f0 :: rest)) i sd)
      rw [hfind] at hB
      have hgoal : matrixEntry (combineGenos (sortedCombinedDf (f0 :: rest)) (f0 :: rest)) r
          (sampleOffset (f0 :: rest) i + j) =
          matrixEntry (List.replicate (sortedCombinedDf (f0 :: rest)).length
            (List.replicate (totalSamples (f0 :: rest)) MISSING_DATA)) r
            (sampleOffset (f0 :: rest) i + j) := hB
      rw [hgoal]
      unfold matrixEntry
      rw [List.getElem?_replicate, if_pos (List.getElem?_eq_some_iff.mp hr).1]
      show (List.replicate (totalSamples (f0 :: rest)) MISSING_DATA)[sampleOffset
          (f0 :: rest) i + j]? = some MISSING_DATA
      rw [List.getElem?_replicate, if_pos (sampleOffset_add_lt (f0 :: rest) i sd hi j hj)]

/-- Witness for C1 at a concrete input: file 1 of [c1File0, c1File1] owns
column 1 (its offset) of both combined matrices; in the combine matrix its
column holds its own data at its rows and MISSING_DATA at the row of the
position it lacks. -/
theorem c1_witness :
    (∀ sd ∈ [c1File0, c1File1], (sitePositions sd).Sorted (· < ·)) ∧
    (∀ sd ∈ [c1File0, c1File1], ∀ s ∈ sd.sites, s.genotypes.length = sd.num_samples) ∧
    matrixEntry (mergeGenos [c1File0, c1File1]
        (selectMask (mergedPositions0 [c1File0, c1File1]) [true])) 0
        (sampleOffset [c1File0, c1File1] 1 + 0) = some 0 ∧
    matrixEntry (combineGenos (sortedCombinedDf [c1File0, c1File1]) [c1File0, c1File1]) 1
        (sampleOffset [c1File0, c1File1] 1 + 0) = some 1 ∧
    matrixEntry (combineGenos (sortedCombinedDf [c1File0, c1File1]) [c1File0, c1File1]) 0
        (sampleOffset [c1File0, c1File1] 1 + 0) = some MISSING_DATA := by
  have h := c1_genotype_column_layout c1File0 [c1File1] (by decide) (by decide)
    1 c1File1 (by rfl) 0 (by decide)
  obtain ⟨hM, hC⟩ := h
  refine ⟨by decide, by decide, ?_, ?_, ?_⟩
  · rw [(hM [true]).2 0]
    rfl
  · rw [(hC { sequence_length := some 10,
              sites := [{ position := 1, genotypes := [0, -1, -1],
                          alleles := [some "A", some "G"] },
                        { position := 2, genotypes := [-1, 1, 0],
                          alleles := [some "A", some "T"] },
                        { position := 4, genotypes := [1, 0, 1],
                          alleles := [some "A", some "C"] }] } (by rfl) 1
        { position := 2, anc := "A", deriv := some "T", ids := [none, some 0],
          dcols := [none, some "T"] } (by rfl)).1 0 (by rfl)]
    rfl
  · rw [(hC { sequence_length := some 10,
              sites := [{ position := 1, genotypes := [0, -1, -1],
                          alleles := [some "A", some "G"] },
                        { position := 2, genotypes := [-1, 1, 0],
                          alleles := [some "A", some "T"] },
                        { position := 4, genotypes := [1, 0, 1],
                          alleles := [some "A", some "C"] }] } (by rfl) 0
        { position := 1, anc := "A", deriv := some "G", ids := [some 0, none],
          dcols := [none, none] } (by rfl)).2 (by rfl)]
